import Mathlib

set_option maxRecDepth 8192

/-!
Verification development for the GraphQL mirror module (`src/graphql/mirror.js`).

The embedding models:
 * the in-memory schema model (`FieldType`, `TypeDecl`, `Schema`) as dispatched on by
   `mirror.js` (string discriminants `"ID" | "PRIMITIVE" | "NODE" | "CONNECTION"` and
   `"OBJECT" | "UNION"`); JavaScript objects are modelled as association lists in
   insertion order, since JS string-keyed objects iterate in insertion order and keys
   are unique;
 * the schema decomposer `_buildSchemaInfo`;
 * the SQL-identifier gate `isSqlSafe`;
 * a small relational-engine model (`EngineState`, `DB`) with tables, indexes, the
   singleton `meta` row, a single optional open transaction, and a trace of every SQL
   statement ever executed (the trace is an observation of execution and is *not*
   rolled back with the transaction, mirroring reality);
 * the transaction wrapper `_inTransaction` and the layout initializer
   (`Mirror._initialize` in the source, `initializeMirror` here).
-/

/-- Field kinds of the schema model: the `field.type` tags `"ID"`, `"PRIMITIVE"`,
`"NODE"`, `"CONNECTION"` that `mirror.js` dispatches on. Node and connection fields
carry their element typename (serialized into the meta blob). -/
inductive FieldType where
  | id : FieldType
  | primitive : FieldType
  | node (elementType : String) : FieldType
  | connection (elementType : String) : FieldType
deriving DecidableEq

/-- Type declarations: the `nodeType.type` tags `"OBJECT"` (with a fieldname → field
mapping) and `"UNION"` (with clause typenames), as dispatched on in `mirror.js`. -/
inductive TypeDecl where
  | object (fields : List (String × FieldType)) : TypeDecl
  | union (clauses : List String) : TypeDecl
deriving DecidableEq

/-- A schema: a typename → type-declaration mapping (a JS object, modelled as an
association list in insertion order). -/
abbrev Schema := List (String × TypeDecl)

/-- Membership of a character in the JS regex character class `[A-Za-z0-9_]`. -/
def isSqlIdentChar (c : Char) : Bool :=
  (decide ('A' ≤ c) && decide (c ≤ 'Z')) ||
  (decide ('a' ≤ c) && decide (c ≤ 'z')) ||
  (decide ('0' ≤ c) && decide (c ≤ '9')) ||
  c == '_'

/-- Embeds `isSqlSafe` from `mirror.js`:
`function isSqlSafe(token) { return !token.match(/[^A-Za-z0-9_]/); }` —
true iff no character of the token falls outside `[A-Za-z0-9_]`. -/
def isSqlSafe (token : String) : Bool :=
  ! token.data.any (fun c => ! isSqlIdentChar c)

/-- The predicate used by the spec's wording: `s` matches the regular expression
`^[A-Za-z0-9_]+$`, i.e. `s` is non-empty and every character is in `[A-Za-z0-9_]`.
This is the spec-side definition, to be compared against `isSqlSafe`. -/
def matchesSqlIdentifierRegex (s : String) : Bool :=
  (! s.data.isEmpty) && s.data.all isSqlIdentChar

/-! ### Canonical JSON for the meta blob

Modelled from the spec: the meta blob is the canonical-JSON (sorted keys, no
insignificant whitespace) serialization of `\x7bversion: "MIRROR_v1", schema\x7d`.
The serialization of the schema objects themselves follows the spec's data model
(schema.js is not among the provided sources): a type declaration serializes as a
record with its `type` tag and its `fields` (objects) or `clauses` (unions, a
Typename → unit mapping serialized with `true` values), and fields serialize as
records with their `type` tag and, for node/connection fields, their `elementType`. -/

/-- Lowercase hex digit for `n < 16`. -/
def hexDigitChar (n : Nat) : Char :=
  if n < 10 then Char.ofNat ('0'.toNat + n) else Char.ofNat ('a'.toNat + n - 10)

/-- Modelled from the spec: JSON string-character escaping as performed by
`JSON.stringify` (hence by `json-stable-stringify`). -/
def jsonEscapeChar (c : Char) : List Char :=
  if c == '"' then ['\\', '"']
  else if c == '\\' then ['\\', '\\']
  else if c == '\x08' then ['\\', 'b']
  else if c == '\x0c' then ['\\', 'f']
  else if c == '\n' then ['\\', 'n']
  else if c == '\r' then ['\\', 'r']
  else if c == '\t' then ['\\', 't']
  else if c.toNat < 32 then ['\\', 'u', '0', '0', hexDigitChar (c.toNat / 16), hexDigitChar (c.toNat % 16)]
  else [c]

/-- Modelled from the spec: a JSON string literal. -/
def jsonStringLit (s : String) : String :=
  ⟨'"' :: ((s.data.map jsonEscapeChar).flatten ++ ['"'])⟩

/-- Lexicographic code-point comparison of character lists: the ordering JS string
comparison induces on the (BMP) strings occurring as JSON keys. -/
def charListLe : List Char → List Char → Bool
  | [], _ => true
  | _ :: _, [] => false
  | c :: cs, d :: ds =>
    if c.toNat < d.toNat then true
    else if d.toNat < c.toNat then false
    else charListLe cs ds

/-- Insert a key/value pair into a key-sorted association list (keys compared as
JS compares strings, i.e. lexicographically by code point). -/
def insertPairSorted {α : Type} (x : String × α) : List (String × α) → List (String × α)
  | [] => [x]
  | y :: ys => if charListLe x.1.data y.1.data then x :: y :: ys else y :: insertPairSorted x ys

/-- Sort an association list by key (canonical JSON sorts object keys). -/
def sortPairs {α : Type} (l : List (String × α)) : List (String × α) :=
  l.foldr insertPairSorted []

/-- Modelled from the spec: a JSON object literal from already-serialized members
(which must already be in key-sorted order). -/
def jsonObjectOf (members : List (String × String)) : String :=
  "\x7b" ++ String.intercalate "," (members.map (fun p => jsonStringLit p.1 ++ ":" ++ p.2)) ++ "\x7d"

/-- Modelled from the spec: canonical JSON of a field declaration. -/
def jsonOfFieldType : FieldType → String
  | .id => jsonObjectOf [("type", jsonStringLit "ID")]
  | .primitive => jsonObjectOf [("type", jsonStringLit "PRIMITIVE")]
  | .node t => jsonObjectOf [("elementType", jsonStringLit t), ("type", jsonStringLit "NODE")]
  | .connection t => jsonObjectOf [("elementType", jsonStringLit t), ("type", jsonStringLit "CONNECTION")]

/-- Modelled from the spec: canonical JSON of a type declaration. -/
def jsonOfTypeDecl : TypeDecl → String
  | .object fields =>
      jsonObjectOf
        [("fields", jsonObjectOf (sortPairs (fields.map (fun p => (p.1, jsonOfFieldType p.2))))),
         ("type", jsonStringLit "OBJECT")]
  | .union clauses =>
      jsonObjectOf
        [("clauses", jsonObjectOf (sortPairs (clauses.map (fun c => (c, "true"))))),
         ("type", jsonStringLit "UNION")]

/-- Modelled from the spec: the canonical-JSON serialization of a schema
(sorted keys, no insignificant whitespace). -/
def stringifySchema (s : Schema) : String :=
  jsonObjectOf (sortPairs (s.map (fun p => (p.1, jsonOfTypeDecl p.2))))

/-- The meta blob: `stringify(\x7bversion: "MIRROR_v1", schema: this._schema\x7d)` with
`json-stable-stringify` (sorted keys: `"schema"` before `"version"`). -/
def metaBlob (s : Schema) : String :=
  jsonObjectOf [("schema", stringifySchema s), ("version", jsonStringLit "MIRROR_v1")]

/-! ### The schema decomposer `_buildSchemaInfo` -/

/-- Per-object-type part of `SchemaInfo`: the raw field mapping plus the three
partitioned field-name sequences. -/
structure ObjectTypeInfo where
  fields : List (String × FieldType)
  primitiveFieldNames : List String
  linkFieldNames : List String
  connectionFieldNames : List String
deriving DecidableEq

/-- Per-union-type part of `SchemaInfo`. -/
structure UnionTypeInfo where
  clauses : List String
deriving DecidableEq

/-- Decomposition of a schema (`SchemaInfo` in `mirror.js`). -/
structure SchemaInfo where
  objectTypes : List (String × ObjectTypeInfo)
  unionTypes : List (String × UnionTypeInfo)
deriving DecidableEq

/-- One step of the field loop in `_buildSchemaInfo`: dispatch on the field kind and
append the field name to the matching sequence (ID fields are skipped). -/
def objEntryStep (entry : ObjectTypeInfo) (p : String × FieldType) : ObjectTypeInfo :=
  match p.2 with
  | .id => entry
  | .primitive => { entry with primitiveFieldNames := entry.primitiveFieldNames ++ [p.1] }
  | .node _ => { entry with linkFieldNames := entry.linkFieldNames ++ [p.1] }
  | .connection _ => { entry with connectionFieldNames := entry.connectionFieldNames ++ [p.1] }

/-- The object-type entry built by `_buildSchemaInfo` for a field mapping: start from
empty sequences and fold the field loop over the fields in iteration order. -/
def buildObjectEntry (fields : List (String × FieldType)) : ObjectTypeInfo :=
  fields.foldl objEntryStep
    { fields := fields, primitiveFieldNames := [], linkFieldNames := [], connectionFieldNames := [] }

/-- One step of the type loop in `_buildSchemaInfo`. -/
def schemaInfoStep (result : SchemaInfo) (p : String × TypeDecl) : SchemaInfo :=
  match p.2 with
  | .object fields => { result with objectTypes := result.objectTypes ++ [(p.1, buildObjectEntry fields)] }
  | .union clauses => { result with unionTypes := result.unionTypes ++ [(p.1, ⟨clauses⟩)] }

/-- Embeds `_buildSchemaInfo` from `mirror.js`: iterate the type names in order,
adding object entries (with the three partitioned sequences) and union entries. -/
def _buildSchemaInfo (schema : Schema) : SchemaInfo :=
  schema.foldl schemaInfoStep { objectTypes := [], unionTypes := [] }

/-- Does this field pair carry the `PRIMITIVE` tag? -/
def isPrimitivePair (p : String × FieldType) : Bool :=
  match p.2 with
  | .primitive => true
  | _ => false

/-- Does this field pair carry the `NODE` tag? -/
def isNodePair (p : String × FieldType) : Bool :=
  match p.2 with
  | .node _ => true
  | _ => false

/-- Does this field pair carry the `CONNECTION` tag? -/
def isConnectionPair (p : String × FieldType) : Bool :=
  match p.2 with
  | .connection _ => true
  | _ => false

/-- Does this field pair carry the `ID` tag? -/
def isIdPair (p : String × FieldType) : Bool :=
  match p.2 with
  | .id => true
  | _ => false

/-- The names of the primitive fields of a field mapping, in iteration order. -/
def primitiveNamesOf (fields : List (String × FieldType)) : List String :=
  (fields.filter isPrimitivePair).map Prod.fst

/-- The names of the node-link fields of a field mapping, in iteration order. -/
def linkNamesOf (fields : List (String × FieldType)) : List String :=
  (fields.filter isNodePair).map Prod.fst

/-- The names of the connection fields of a field mapping, in iteration order. -/
def connectionNamesOf (fields : List (String × FieldType)) : List String :=
  (fields.filter isConnectionPair).map Prod.fst

/-! ### The relational-engine model -/

/-- Errors raised by the mirror code or the engine. Each constructor corresponds to a
distinct thrown `Error` in `mirror.js`:
 * `alreadyInTransaction` — `"already in transaction"` in `_inTransaction`;
 * `mismatch` — `"Database already populated with incompatible schema or version"`;
 * `invalidTypename` — `"invalid object type name: ..."`;
 * `invalidFieldname` — `"invalid field name: ..."`;
 * `invariantViolation` — the defensive recheck inside `primitivesTableName`;
 * `engine` — an error raised by the relational engine itself. -/
inductive Err where
  | alreadyInTransaction : Err
  | mismatch : Err
  | invalidTypename (t : String) : Err
  | invalidFieldname (f : String) : Err
  | invariantViolation (t : String) : Err
  | engine (msg : String) : Err
deriving DecidableEq

deriving instance DecidableEq for Except

/-- A created table: its (unquoted) name, its column names in declaration order, and
its primary-key columns. Column types, nullability and foreign keys are not needed by
any claim and are not modelled. -/
structure Table where
  name : String
  columns : List String
  primaryKey : List String
deriving DecidableEq

/-- The durable contents of the database relevant to initialization: the created
tables, the created index names, and the contents of the singleton `meta` row
(`none` when the row is absent — also whenever the `meta` table itself is absent). -/
structure EngineState where
  tables : List Table
  indexes : List String
  metaRow : Option String
deriving DecidableEq

/-- A fresh, empty database: no tables, no indexes, no `meta` row. -/
def emptyEngineState : EngineState :=
  { tables := [], indexes := [], metaRow := none }

/-- A database connection: the committed state, the working state of the open
transaction (if one is open), and the trace of every SQL statement ever executed.
The trace records execution itself, so it is never rolled back. -/
structure DB where
  committed : EngineState
  txn : Option EngineState
  trace : List String
deriving DecidableEq

/-- A fresh connection to a fresh, empty database. -/
def emptyDB : DB :=
  { committed := emptyEngineState, txn := none, trace := [] }

/-- `db.inTransaction` of better-sqlite3: is a transaction open? -/
def DB.inTransaction (db : DB) : Bool :=
  db.txn.isSome

/-- The state statements read and write: the open transaction's working state, or the
committed state when no transaction is open (autocommit). -/
def DB.working (db : DB) : EngineState :=
  db.txn.getD db.committed

/-- Replace the state statements act on (the transaction's working state when a
transaction is open, the committed state otherwise). -/
def DB.setWorking (db : DB) (s : EngineState) : DB :=
  match db.txn with
  | some _ => { db with txn := some s }
  | none => { db with committed := s }

/-- Append an executed statement to the trace. -/
def DB.log (db : DB) (stmt : String) : DB :=
  { db with trace := db.trace ++ [stmt] }

/-- `BEGIN`: open a transaction whose working state starts from the committed state. -/
def beginTxn (db : DB) : DB :=
  { db.log "BEGIN" with txn := some db.committed }

/-- `COMMIT`: make the working state durable and close the transaction. -/
def commitTxn (db : DB) : DB :=
  { db.log "COMMIT" with committed := db.working, txn := none }

/-- `ROLLBACK`: discard the working state and close the transaction. -/
def rollbackTxn (db : DB) : DB :=
  { db.log "ROLLBACK" with txn := none }

/-- `CREATE TABLE IF NOT EXISTS`: a no-op when a table of that name exists. -/
def execCreateTableIfNotExists (db : DB) (t : Table) : DB :=
  let db := db.log ("CREATE TABLE IF NOT EXISTS " ++ t.name)
  let s := db.working
  if s.tables.any (fun u => u.name == t.name) then db
  else db.setWorking { s with tables := s.tables ++ [t] }

/-- `CREATE TABLE` (no `IF NOT EXISTS`): an engine error when the name is taken. -/
def execCreateTable (db : DB) (t : Table) : DB × Except Err Unit :=
  let db := db.log ("CREATE TABLE " ++ t.name)
  let s := db.working
  if s.tables.any (fun u => u.name == t.name) then
    (db, Except.error (Err.engine ("table " ++ t.name ++ " already exists")))
  else (db.setWorking { s with tables := s.tables ++ [t] }, Except.ok ())

/-- `CREATE INDEX`: an engine error when the index name is taken. -/
def execCreateIndex (db : DB) (idxName : String) : DB × Except Err Unit :=
  let db := db.log ("CREATE INDEX " ++ idxName)
  let s := db.working
  if s.indexes.any (fun n => n == idxName) then
    (db, Except.error (Err.engine ("index " ++ idxName ++ " already exists")))
  else (db.setWorking { s with indexes := s.indexes ++ [idxName] }, Except.ok ())

/-- `SELECT schema FROM meta` with `.pluck().get()`: the stored blob, or `none`
(JS `undefined`) when the singleton row is absent. -/
def execSelectMetaSchema (db : DB) : DB × Option String :=
  (db.log "SELECT schema FROM meta", db.working.metaRow)

/-- `INSERT INTO meta (zero, schema) VALUES (0, ?)`: executed by `_initialize` only
after observing that the row is absent. -/
def execInsertMeta (db : DB) (blob : String) : DB :=
  let db := db.log "INSERT INTO meta (zero, schema) VALUES (0, ?)"
  let s := db.working
  db.setWorking { s with metaRow := some blob }

/-- Embeds `_inTransaction` from `mirror.js`: refuse when already in a transaction;
otherwise `BEGIN`, run the callback, commit on normal return if a transaction is
still open, and (in the `finally`) roll back whatever transaction remains open on an
error path. The callback receives the connection and returns it together with its
outcome (a thrown error propagates, but the connection's state persists). -/
def _inTransaction {α : Type} (db : DB) (fn : DB → DB × Except Err α) : DB × Except Err α :=
  if db.inTransaction then (db, Except.error Err.alreadyInTransaction)
  else
    let p := fn (beginTxn db)
    match p.2 with
    | Except.ok r =>
        let db2 := if p.1.inTransaction then commitTxn p.1 else p.1
        ((if db2.inTransaction then rollbackTxn db2 else db2), Except.ok r)
    | Except.error e =>
        ((if p.1.inTransaction then rollbackTxn p.1 else p.1), Except.error e)

/-! ### The layout initializer -/

/-- The `meta` table (`CREATE TABLE IF NOT EXISTS meta (zero INTEGER PRIMARY KEY,
schema TEXT NOT NULL)`). -/
def metaTable : Table :=
  { name := "meta", columns := ["zero", "schema"], primaryKey := ["zero"] }

/-- The `updates` table. -/
def updatesTable : Table :=
  { name := "updates", columns := ["rowid", "time_epoch_millis"], primaryKey := ["rowid"] }

/-- The `objects` table. -/
def objectsTable : Table :=
  { name := "objects", columns := ["id", "typename", "last_update"], primaryKey := ["id"] }

/-- The `links` table. -/
def linksTable : Table :=
  { name := "links", columns := ["rowid", "parent_id", "fieldname", "child_id"],
    primaryKey := ["rowid"] }

/-- The `connections` table. -/
def connectionsTable : Table :=
  { name := "connections",
    columns := ["rowid", "object_id", "fieldname", "last_update", "total_count",
                "has_next_page", "end_cursor"],
    primaryKey := ["rowid"] }

/-- The `connection_entries` table. -/
def connectionEntriesTable : Table :=
  { name := "connection_entries",
    columns := ["rowid", "connection_id", "idx", "child_id"], primaryKey := ["rowid"] }

/-- A schema-independent DDL statement of the `structuralTables` array. -/
inductive SqlStmt where
  | createTable (t : Table) : SqlStmt
  | createIndex (idxName : String) : SqlStmt
deriving DecidableEq

/-- Execute one structural DDL statement. -/
def execStmt (db : DB) : SqlStmt → DB × Except Err Unit
  | .createTable t => execCreateTable db t
  | .createIndex n => execCreateIndex db n

/-- Execute a list of DDL statements in order, stopping at the first engine error
(`for (const sql of structuralTables) db.prepare(sql).run()`). -/
def execStmts (db : DB) : List SqlStmt → DB × Except Err Unit
  | [] => (db, Except.ok ())
  | s :: rest =>
    match execStmt db s with
    | (db1, Except.ok _) => execStmts db1 rest
    | (db1, Except.error e) => (db1, Except.error e)

/-- The `structuralTables` array of `_initialize`, in its exact order: `updates`,
`objects`, `links`, index on `links`, `connections`, index on `connections`,
`connection_entries`, index on `connection_entries`. -/
def structuralStmts : List SqlStmt :=
  [ SqlStmt.createTable updatesTable,
    SqlStmt.createTable objectsTable,
    SqlStmt.createTable linksTable,
    SqlStmt.createIndex "idx_links__parent_id__fieldname",
    SqlStmt.createTable connectionsTable,
    SqlStmt.createIndex "idx_connections__object_id__fieldname",
    SqlStmt.createTable connectionEntriesTable,
    SqlStmt.createIndex "idx_connection_entries__connection_id" ]

/-- The primitive-field-gathering loop of `_initialize` for one object type: walk the
fields in order; `ID`, `NODE` and `CONNECTION` fields are skipped; each `PRIMITIVE`
field name is checked with `isSqlSafe` (throwing `invalid field name` on failure) and
collected. -/
def collectPrimitiveFieldNames : List (String × FieldType) → Except Err (List String)
  | [] => Except.ok []
  | (fieldname, ft) :: rest =>
    match ft with
    | FieldType.primitive =>
        if isSqlSafe fieldname then
          match collectPrimitiveFieldNames rest with
          | Except.ok names => Except.ok (fieldname :: names)
          | Except.error e => Except.error e
        else Except.error (Err.invalidFieldname fieldname)
    | _ => collectPrimitiveFieldNames rest

/-- Embeds `primitivesTableName` from `mirror.js`, including its defensive recheck.
The source returns the *double-quoted* SQL text `"primitives_T"`; the quotes are SQL
identifier delimiters, so the table's name is `primitives_T`, which is what this
returns. -/
def primitivesTableName (typename : String) : Except Err String :=
  if isSqlSafe typename then Except.ok ("primitives_" ++ typename)
  else Except.error (Err.invariantViolation typename)

/-- The per-type loop of `_initialize`: unions produce no DDL; for each object type,
check the typename, gather (and check) the primitive field names, and create
`primitives_<Typename>` with a primary-key `id` column followed by one column per
primitive field, named verbatim. -/
def createPrimitiveTables : Schema → DB → DB × Except Err Unit
  | [], db => (db, Except.ok ())
  | (typename, decl) :: rest, db =>
    match decl with
    | TypeDecl.union _ => createPrimitiveTables rest db
    | TypeDecl.object fields =>
      if isSqlSafe typename then
        match collectPrimitiveFieldNames fields with
        | Except.error e => (db, Except.error e)
        | Except.ok primNames =>
          match primitivesTableName typename with
          | Except.error e => (db, Except.error e)
          | Except.ok tname =>
            match execCreateTable db
                { name := tname, columns := "id" :: primNames, primaryKey := ["id"] } with
            | (db1, Except.ok _) => createPrimitiveTables rest db1
            | (db1, Except.error e) => (db1, Except.error e)
      else (db, Except.error (Err.invalidTypename typename))

/-- The transaction body of `_initialize`: create `meta` if absent; read the stored
blob; return early when it equals the computed blob; raise the mismatch error when a
different blob is present; otherwise insert the blob, run the structural DDL, and
create the primitive tables. -/
def initMirrorBody (schema : Schema) (blob : String) (db : DB) : DB × Except Err Unit :=
  let db := execCreateTableIfNotExists db metaTable
  let p := execSelectMetaSchema db
  match p.2 with
  | some existingBlob =>
      if existingBlob == blob then (p.1, Except.ok ())
      else (p.1, Except.error Err.mismatch)
  | none =>
      let db := execInsertMeta p.1 blob
      match execStmts db structuralStmts with
      | (db1, Except.ok _) => createPrimitiveTables schema db1
      | (db1, Except.error e) => (db1, Except.error e)

/-- Embeds `Mirror._initialize` from `mirror.js` (named `initializeMirror` here):
compute the meta blob and run the initialization body inside `_inTransaction`. -/
def initializeMirror (schema : Schema) (db : DB) : DB × Except Err Unit :=
  _inTransaction db (initMirrorBody schema (metaBlob schema))

/-- Is this error one of the two identifier-unsafe errors of `_initialize`? -/
def isIdentifierError : Err → Bool
  | Err.invalidTypename _ => true
  | Err.invalidFieldname _ => true
  | _ => false

/-- Did a run end in one of the two identifier-unsafe errors of `_initialize`? -/
def resultIsIdentifierError : Except Err Unit → Bool
  | Except.error e => isIdentifierError e
  | Except.ok _ => false

/-- Is every object typename of the schema `isSqlSafe`, and likewise every primitive
field name of every object type? (These are exactly the identifiers `_initialize`
checks; union typenames and node/connection field names are not among them.) -/
def objectIdentifiersSafe (s : Schema) : Bool :=
  s.all fun p =>
    match p.2 with
    | TypeDecl.object fields =>
        isSqlSafe p.1 &&
        fields.all (fun q =>
          match q.2 with
          | FieldType.primitive => isSqlSafe q.1
          | _ => true)
    | TypeDecl.union _ => true

/-- The expected `primitives_<Typename>` table for an object type's field mapping. -/
def expectedPrimitivesTable (typename : String) (fields : List (String × FieldType)) : Table :=
  { name := "primitives_" ++ typename,
    columns := "id" :: primitiveNamesOf fields,
    primaryKey := ["id"] }

/-- The tables that a successful run of the per-type loop appends, in order. -/
def primTablesOf (s : Schema) : List Table :=
  s.filterMap fun p =>
    match p.2 with
    | TypeDecl.object fields => some (expectedPrimitivesTable p.1 fields)
    | TypeDecl.union _ => none

/-- The object-type entries that `_buildSchemaInfo` accumulates, in schema order. -/
def objectTypesOf (s : Schema) : List (String × ObjectTypeInfo) :=
  s.filterMap fun p =>
    match p.2 with
    | TypeDecl.object fields => some (p.1, buildObjectEntry fields)
    | TypeDecl.union _ => none

/-- The union-type entries that `_buildSchemaInfo` accumulates, in schema order. -/
def unionTypesOf (s : Schema) : List (String × UnionTypeInfo) :=
  s.filterMap fun p =>
    match p.2 with
    | TypeDecl.object _ => none
    | TypeDecl.union clauses => some (p.1, ⟨clauses⟩)

/-- The connection state reached by `initializeMirror` on a fresh database just
before the per-type loop: transaction open, `meta` created and populated with the
blob, structural tables and indexes created, nothing committed yet. -/
def dbAfterStructural (s : Schema) : DB :=
  { committed := emptyEngineState,
    txn := some
      { tables := [metaTable, updatesTable, objectsTable, linksTable,
                   connectionsTable, connectionEntriesTable],
        indexes := ["idx_links__parent_id__fieldname",
                    "idx_connections__object_id__fieldname",
                    "idx_connection_entries__connection_id"],
        metaRow := some (metaBlob s) },
    trace := ["BEGIN",
              "CREATE TABLE IF NOT EXISTS meta",
              "SELECT schema FROM meta",
              "INSERT INTO meta (zero, schema) VALUES (0, ?)",
              "CREATE TABLE updates",
              "CREATE TABLE objects",
              "CREATE TABLE links",
              "CREATE INDEX idx_links__parent_id__fieldname",
              "CREATE TABLE connections",
              "CREATE INDEX idx_connections__object_id__fieldname",
              "CREATE TABLE connection_entries",
              "CREATE INDEX idx_connection_entries__connection_id"] }

/-! ## Lemmas: the schema decomposer -/

theorem foldl_objEntryStep (fields : List (String × FieldType)) (acc : ObjectTypeInfo) :
    fields.foldl objEntryStep acc =
      { fields := acc.fields,
        primitiveFieldNames := acc.primitiveFieldNames ++ primitiveNamesOf fields,
        linkFieldNames := acc.linkFieldNames ++ linkNamesOf fields,
        connectionFieldNames := acc.connectionFieldNames ++ connectionNamesOf fields } := by
  induction fields generalizing acc with
  | nil => simp [primitiveNamesOf, linkNamesOf, connectionNamesOf]
  | cons p rest ih =>
    obtain ⟨f, ft⟩ := p
    cases ft <;>
      simp [objEntryStep, ih, primitiveNamesOf, linkNamesOf, connectionNamesOf,
        isPrimitivePair, isNodePair, isConnectionPair, List.filter_cons]

theorem buildObjectEntry_eq (fields : List (String × FieldType)) :
    buildObjectEntry fields =
      { fields := fields,
        primitiveFieldNames := primitiveNamesOf fields,
        linkFieldNames := linkNamesOf fields,
        connectionFieldNames := connectionNamesOf fields } := by
  simpa [buildObjectEntry] using foldl_objEntryStep fields _

theorem foldl_schemaInfoStep (s : Schema) (acc : SchemaInfo) :
    s.foldl schemaInfoStep acc =
      { objectTypes := acc.objectTypes ++ objectTypesOf s,
        unionTypes := acc.unionTypes ++ unionTypesOf s } := by
  induction s generalizing acc with
  | nil => simp [objectTypesOf, unionTypesOf]
  | cons p rest ih =>
    obtain ⟨t, d⟩ := p
    cases d <;> simp [schemaInfoStep, ih, objectTypesOf, unionTypesOf, List.filterMap_cons]

theorem buildSchemaInfo_eq (s : Schema) :
    _buildSchemaInfo s = { objectTypes := objectTypesOf s, unionTypes := unionTypesOf s } := by
  simpa [_buildSchemaInfo] using foldl_schemaInfoStep s _

theorem isPrimitivePair_eq {p : String × FieldType} :
    isPrimitivePair p = true ↔ p.2 = FieldType.primitive := by
  obtain ⟨f, ft⟩ := p; cases ft <;> simp [isPrimitivePair]

theorem isNodePair_eq {p : String × FieldType} :
    isNodePair p = true ↔ ∃ t, p.2 = FieldType.node t := by
  obtain ⟨f, ft⟩ := p; cases ft <;> simp [isNodePair]

theorem isConnectionPair_eq {p : String × FieldType} :
    isConnectionPair p = true ↔ ∃ t, p.2 = FieldType.connection t := by
  obtain ⟨f, ft⟩ := p; cases ft <;> simp [isConnectionPair]

theorem isIdPair_eq {p : String × FieldType} :
    isIdPair p = true ↔ p.2 = FieldType.id := by
  obtain ⟨f, ft⟩ := p; cases ft <;> simp [isIdPair]

theorem mem_primitiveNamesOf {fields : List (String × FieldType)} {f : String} :
    f ∈ primitiveNamesOf fields ↔ (f, FieldType.primitive) ∈ fields := by
  simp only [primitiveNamesOf, List.mem_map, List.mem_filter]
  constructor
  · rintro ⟨⟨g, ft⟩, ⟨hm, hp⟩, rfl⟩
    have := isPrimitivePair_eq.mp hp
    simp only at this
    rwa [this] at hm
  · intro hm
    exact ⟨(f, FieldType.primitive), ⟨hm, isPrimitivePair_eq.mpr rfl⟩, rfl⟩

theorem mem_linkNamesOf {fields : List (String × FieldType)} {f : String} :
    f ∈ linkNamesOf fields ↔ ∃ t, (f, FieldType.node t) ∈ fields := by
  simp only [linkNamesOf, List.mem_map, List.mem_filter]
  constructor
  · rintro ⟨⟨g, ft⟩, ⟨hm, hp⟩, rfl⟩
    obtain ⟨t, ht⟩ := isNodePair_eq.mp hp
    simp only at ht
    exact ⟨t, by rwa [ht] at hm⟩
  · rintro ⟨t, hm⟩
    exact ⟨(f, FieldType.node t), ⟨hm, isNodePair_eq.mpr ⟨t, rfl⟩⟩, rfl⟩

theorem mem_connectionNamesOf {fields : List (String × FieldType)} {f : String} :
    f ∈ connectionNamesOf fields ↔ ∃ t, (f, FieldType.connection t) ∈ fields := by
  simp only [connectionNamesOf, List.mem_map, List.mem_filter]
  constructor
  · rintro ⟨⟨g, ft⟩, ⟨hm, hp⟩, rfl⟩
    obtain ⟨t, ht⟩ := isConnectionPair_eq.mp hp
    simp only at ht
    exact ⟨t, by rwa [ht] at hm⟩
  · rintro ⟨t, hm⟩
    exact ⟨(f, FieldType.connection t), ⟨hm, isConnectionPair_eq.mpr ⟨t, rfl⟩⟩, rfl⟩

/-- In an association list with `Nodup` keys, a key determines its value. -/
theorem assoc_functional {α β : Type} {l : List (α × β)} (h : (l.map Prod.fst).Nodup)
    {a : α} {b1 b2 : β} (h1 : (a, b1) ∈ l) (h2 : (a, b2) ∈ l) : b1 = b2 := by
  induction l with
  | nil => cases h1
  | cons x xs ih =>
    rw [List.map_cons, List.nodup_cons] at h
    rcases List.mem_cons.1 h1 with h1h | h1t <;> rcases List.mem_cons.1 h2 with h2h | h2t
    · rw [← h1h] at h2h; exact (Prod.mk.injEq _ _ _ _ ▸ h2h).2.symm
    · exfalso
      exact h.1 (by simpa [← h1h] using List.mem_map_of_mem Prod.fst h2t)
    · exfalso
      exact h.1 (by simpa [← h2h] using List.mem_map_of_mem Prod.fst h1t)
    · exact ih h.2 h1t h2t

/-- A list whose `countP` is one has at most one member satisfying the predicate. -/
theorem countP_one_unique {α : Type} (p : α → Bool) :
    ∀ l : List α, l.countP p = 1 →
      ∀ a b, a ∈ l → b ∈ l → p a = true → p b = true → a = b := by
  intro l
  induction l with
  | nil => intro h; simp [List.countP_nil] at h
  | cons x xs ih =>
    intro h a b ha hb hpa hpb
    rw [List.countP_cons] at h
    by_cases hx : p x = true
    · rw [if_pos hx] at h
      have hxs : xs.countP p = 0 := by omega
      have hnone := List.countP_eq_zero.mp hxs
      rcases List.mem_cons.1 ha with rfl | hat
      · rcases List.mem_cons.1 hb with rfl | hbt
        · rfl
        · exact absurd hpb (by simpa using hnone b hbt)
      · exact absurd hpa (by simpa using hnone a hat)
    · rw [if_neg hx] at h
      have hxs : xs.countP p = 1 := by omega
      rcases List.mem_cons.1 ha with rfl | hat
      · exact absurd hpa hx
      · rcases List.mem_cons.1 hb with rfl | hbt
        · exact absurd hpb hx
        · exact ih hxs a b hat hbt hpa hpb

/-! ## Lemmas: the engine model -/

@[simp] theorem log_committed (db : DB) (m : String) : (db.log m).committed = db.committed := rfl

@[simp] theorem log_txn (db : DB) (m : String) : (db.log m).txn = db.txn := rfl

@[simp] theorem log_working (db : DB) (m : String) : (db.log m).working = db.working := rfl

@[simp] theorem log_trace (db : DB) (m : String) : (db.log m).trace = db.trace ++ [m] := rfl

@[simp] theorem working_setWorking (db : DB) (s : EngineState) : (db.setWorking s).working = s := by
  cases h : db.txn <;> simp [DB.setWorking, DB.working, h]

@[simp] theorem setWorking_txn_isSome (db : DB) (s : EngineState) :
    (db.setWorking s).txn.isSome = db.txn.isSome := by
  cases h : db.txn <;> simp [DB.setWorking, h]

@[simp] theorem setWorking_trace (db : DB) (s : EngineState) :
    (db.setWorking s).trace = db.trace := by
  cases h : db.txn <;> simp [DB.setWorking, h]

theorem setWorking_committed (db : DB) (s : EngineState) (h : db.txn.isSome = true) :
    (db.setWorking s).committed = db.committed := by
  cases htx : db.txn with
  | some t => simp [DB.setWorking, htx]
  | none => rw [htx] at h; cases h

@[simp] theorem inTransaction_eq (db : DB) : db.inTransaction = db.txn.isSome := rfl

@[simp] theorem beginTxn_txn (db : DB) : (beginTxn db).txn = some db.committed := rfl

@[simp] theorem beginTxn_committed (db : DB) : (beginTxn db).committed = db.committed := rfl

@[simp] theorem beginTxn_working (db : DB) : (beginTxn db).working = db.committed := rfl

@[simp] theorem beginTxn_trace (db : DB) : (beginTxn db).trace = db.trace ++ ["BEGIN"] := rfl

@[simp] theorem commitTxn_txn (db : DB) : (commitTxn db).txn = none := rfl

@[simp] theorem commitTxn_committed (db : DB) : (commitTxn db).committed = db.working := rfl

@[simp] theorem commitTxn_trace (db : DB) : (commitTxn db).trace = db.trace ++ ["COMMIT"] := rfl

@[simp] theorem rollbackTxn_txn (db : DB) : (rollbackTxn db).txn = none := rfl

@[simp] theorem rollbackTxn_committed (db : DB) : (rollbackTxn db).committed = db.committed := rfl

@[simp] theorem rollbackTxn_trace (db : DB) : (rollbackTxn db).trace = db.trace ++ ["ROLLBACK"] := rfl

/-- `_inTransaction` fails fast, touching nothing, when a transaction is open. -/
theorem inTransaction_already {α : Type} (db : DB) (fn : DB → DB × Except Err α)
    (h : db.txn.isSome = true) :
    _inTransaction db fn = (db, Except.error Err.alreadyInTransaction) := by
  simp [_inTransaction, h]

/-- `_inTransaction` on a successful callback: the callback's remaining transaction
(if any) is committed and the value is passed through. -/
theorem inTransaction_ok {α : Type} (db : DB) (fn : DB → DB × Except Err α)
    (db1 : DB) (r : α) (h0 : db.txn = none) (h : fn (beginTxn db) = (db1, Except.ok r)) :
    _inTransaction db fn = ((if db1.txn.isSome then commitTxn db1 else db1), Except.ok r) := by
  simp only [_inTransaction, inTransaction_eq, h0, Option.isSome_none, if_false, h]
  by_cases h1 : db1.txn.isSome = true
  · simp [h1]
  · simp only [Bool.not_eq_true] at h1
    simp [h1, Option.isSome]
    cases htx : db1.txn with
    | some t => rw [htx] at h1; cases h1
    | none => simp [htx]

/-- `_inTransaction` on a callback that throws: the error propagates and any
remaining transaction is rolled back. -/
theorem inTransaction_error {α : Type} (db : DB) (fn : DB → DB × Except Err α)
    (db1 : DB) (e : Err) (h0 : db.txn = none) (h : fn (beginTxn db) = (db1, Except.error e)) :
    _inTransaction db fn = ((if db1.txn.isSome then rollbackTxn db1 else db1), Except.error e) := by
  simp only [_inTransaction, inTransaction_eq, h0, Option.isSome_none, if_false, h]
  simp

theorem execCreateTable_pres (db : DB) (t : Table) (h : db.txn.isSome = true) :
    ((execCreateTable db t).1.committed = db.committed) ∧
    ((execCreateTable db t).1.txn.isSome = true) ∧
    ((execCreateTable db t).1.working.metaRow = db.working.metaRow) ∧
    (∃ ts, (execCreateTable db t).1.working.tables = db.working.tables ++ ts) := by
  simp only [execCreateTable]
  split
  · exact ⟨rfl, by simpa using h, rfl, ⟨[], by simp⟩⟩
  · refine ⟨?_, by simp [h], by simp, ⟨[t], by simp⟩⟩
    rw [setWorking_committed _ _ (by simpa using h)]
    rfl

theorem execCreateIndex_pres (db : DB) (n : String) (h : db.txn.isSome = true) :
    ((execCreateIndex db n).1.committed = db.committed) ∧
    ((execCreateIndex db n).1.txn.isSome = true) ∧
    ((execCreateIndex db n).1.working.metaRow = db.working.metaRow) ∧
    (∃ ts, (execCreateIndex db n).1.working.tables = db.working.tables ++ ts) := by
  simp only [execCreateIndex]
  split
  · exact ⟨rfl, by simpa using h, rfl, ⟨[], by simp⟩⟩
  · refine ⟨?_, by simp [h], by simp, ⟨[], by simp⟩⟩
    rw [setWorking_committed _ _ (by simpa using h)]
    rfl

theorem execStmt_pres (db : DB) (s : SqlStmt) (h : db.txn.isSome = true) :
    ((execStmt db s).1.committed = db.committed) ∧
    ((execStmt db s).1.txn.isSome = true) ∧
    ((execStmt db s).1.working.metaRow = db.working.metaRow) ∧
    (∃ ts, (execStmt db s).1.working.tables = db.working.tables ++ ts) := by
  cases s with
  | createTable t => exact execCreateTable_pres db t h
  | createIndex n => exact execCreateIndex_pres db n h

theorem execStmts_pres (l : List SqlStmt) :
    ∀ db : DB, db.txn.isSome = true →
    ((execStmts db l).1.committed = db.committed) ∧
    ((execStmts db l).1.txn.isSome = true) ∧
    ((execStmts db l).1.working.metaRow = db.working.metaRow) ∧
    (∃ ts, (execStmts db l).1.working.tables = db.working.tables ++ ts) := by
  induction l with
  | nil => intro db h; exact ⟨rfl, h, rfl, ⟨[], by simp [execStmts]⟩⟩
  | cons s rest ih =>
    intro db h
    obtain ⟨hc, ht, hm, ⟨ts0, htab⟩⟩ := execStmt_pres db s h
    rcases hstep : execStmt db s with ⟨db1, res⟩
    rw [hstep] at hc ht hm htab
    cases res with
    | ok r =>
      obtain ⟨ihc, iht, ihm, ⟨ts1, ihtab⟩⟩ := ih db1 ht
      refine ⟨?_, ?_, ?_, ⟨ts0 ++ ts1, ?_⟩⟩ <;>
        simp only [execStmts, hstep]
      · rw [ihc, hc]
      · exact iht
      · rw [ihm, hm]
      · rw [ihtab, htab, List.append_assoc]
    | error e =>
      exact ⟨by simp only [execStmts, hstep]; exact hc,
             by simp only [execStmts, hstep]; exact ht,
             by simp only [execStmts, hstep]; exact hm,
             ⟨ts0, by simp only [execStmts, hstep]; exact htab⟩⟩

theorem createPrimitiveTables_pres (s : Schema) :
    ∀ db : DB, db.txn.isSome = true →
    ((createPrimitiveTables s db).1.committed = db.committed) ∧
    ((createPrimitiveTables s db).1.txn.isSome = true) ∧
    ((createPrimitiveTables s db).1.working.metaRow = db.working.metaRow) ∧
    (∃ ts, (createPrimitiveTables s db).1.working.tables = db.working.tables ++ ts) := by
  induction s with
  | nil => intro db h; exact ⟨rfl, h, rfl, ⟨[], by simp [createPrimitiveTables]⟩⟩
  | cons p rest ih =>
    intro db h
    obtain ⟨typename, decl⟩ := p
    cases decl with
    | union clauses => simpa [createPrimitiveTables] using ih db h
    | object fields =>
      by_cases hsafe : isSqlSafe typename = true
      · rcases hcoll : collectPrimitiveFieldNames fields with e | primNames
        · exact ⟨by simp [createPrimitiveTables, hsafe, hcoll],
                 by simp [createPrimitiveTables, hsafe, hcoll, h],
                 by simp [createPrimitiveTables, hsafe, hcoll],
                 ⟨[], by simp [createPrimitiveTables, hsafe, hcoll]⟩⟩
        · have hname : primitivesTableName typename = Except.ok ("primitives_" ++ typename) := by
            simp [primitivesTableName, hsafe]
          obtain ⟨hc, ht, hm, ⟨ts0, htab⟩⟩ :=
            execCreateTable_pres db
              { name := "primitives_" ++ typename, columns := "id" :: primNames,
                primaryKey := ["id"] } h
          rcases hstep : execCreateTable db
              { name := "primitives_" ++ typename, columns := "id" :: primNames,
                primaryKey := ["id"] } with ⟨db1, res⟩
          rw [hstep] at hc ht hm htab
          cases res with
          | ok r =>
            obtain ⟨ihc, iht, ihm, ⟨ts1, ihtab⟩⟩ := ih db1 ht
            refine ⟨?_, ?_, ?_, ⟨ts0 ++ ts1, ?_⟩⟩ <;>
              simp only [createPrimitiveTables, hsafe, hcoll, hname, hstep, if_true]
            · rw [ihc, hc]
            · exact iht
            · rw [ihm, hm]
            · rw [ihtab, htab, List.append_assoc]
          | error e =>
            refine ⟨?_, ?_, ?_, ⟨ts0, ?_⟩⟩ <;>
              simp only [createPrimitiveTables, hsafe, hcoll, hname, hstep, if_true]
            · exact hc
            · exact ht
            · exact hm
            · exact htab
      · have hsafe' : isSqlSafe typename = false := by simpa using hsafe
        exact ⟨by simp [createPrimitiveTables, hsafe'],
               by simp [createPrimitiveTables, hsafe', h],
               by simp [createPrimitiveTables, hsafe'],
               ⟨[], by simp [createPrimitiveTables, hsafe']⟩⟩

/-! ## Lemmas: the meta blob -/

theorem intercalate_pair (A B : String) : String.intercalate "," [A, B] = A ++ "," ++ B := rfl

theorem metaBlob_shape (u : Schema) :
    metaBlob u =
      "\x7b" ++ (jsonStringLit "schema" ++ ":" ++ stringifySchema u ++ "," ++
        (jsonStringLit "version" ++ ":" ++ jsonStringLit "MIRROR_v1")) ++ "\x7d" := rfl

/-- Two schemas with distinct canonical serializations have distinct meta blobs. -/
theorem metaBlob_inj {s t : Schema} (h : metaBlob s = metaBlob t) :
    stringifySchema s = stringifySchema t := by
  have hd := congrArg String.data h
  rw [metaBlob_shape s, metaBlob_shape t] at hd
  simp only [String.data_append, List.append_assoc] at hd
  have h1 := List.append_cancel_left hd
  have h2 := List.append_cancel_left h1
  have h3 := List.append_cancel_left h2
  exact String.ext (List.append_cancel_right h3)

/-- The name of a primitives table always starts with `p`. -/
theorem prim_name_head (T : String) : ("primitives_" ++ T).data.head? = some 'p' := by
  rw [String.data_append]; rfl

/-- `primitives_<T>` determines `T`. -/
theorem primPrefix_inj {a b : String} (h : "primitives_" ++ a = "primitives_" ++ b) :
    a = b := by
  have hd := congrArg String.data h
  rw [String.data_append, String.data_append] at hd
  exact String.ext (List.append_cancel_left hd)

/-! ## Lemmas: remaining statement executors -/

theorem execCreateTableIfNotExists_pres (db : DB) (t : Table) (h : db.txn.isSome = true) :
    ((execCreateTableIfNotExists db t).committed = db.committed) ∧
    ((execCreateTableIfNotExists db t).txn.isSome = true) ∧
    ((execCreateTableIfNotExists db t).working.metaRow = db.working.metaRow) ∧
    (∃ ts, (execCreateTableIfNotExists db t).working.tables = db.working.tables ++ ts) := by
  simp only [execCreateTableIfNotExists]
  split
  · exact ⟨rfl, by simpa using h, rfl, ⟨[], by simp⟩⟩
  · refine ⟨?_, by simp [h], by simp, ⟨[t], by simp⟩⟩
    rw [setWorking_committed _ _ (by simpa using h)]
    rfl

/-- After `CREATE TABLE IF NOT EXISTS meta`, a table named `meta` is present. -/
theorem execCreateMeta_any (db : DB) :
    ((execCreateTableIfNotExists db metaTable).working.tables.any
      fun u => u.name == "meta") = true := by
  simp only [execCreateTableIfNotExists]
  split
  · next hcond => simpa [metaTable] using hcond
  · simp [metaTable]

theorem execInsertMeta_pres (db : DB) (b : String) (h : db.txn.isSome = true) :
    ((execInsertMeta db b).committed = db.committed) ∧
    ((execInsertMeta db b).txn.isSome = true) ∧
    ((execInsertMeta db b).working.metaRow = some b) ∧
    ((execInsertMeta db b).working.tables = db.working.tables) := by
  refine ⟨?_, by simp [execInsertMeta, h], by simp [execInsertMeta], by simp [execInsertMeta]⟩
  simp only [execInsertMeta]
  rw [setWorking_committed _ _ (by simpa using h)]
  rfl

theorem execCreateTable_trace (db : DB) (t : Table) :
    ∃ tr, (execCreateTable db t).1.trace = db.trace ++ tr := by
  simp only [execCreateTable]
  split
  · exact ⟨["CREATE TABLE " ++ t.name], by simp⟩
  · exact ⟨["CREATE TABLE " ++ t.name], by simp⟩

theorem createPrimitiveTables_trace (s : Schema) :
    ∀ db : DB, ∃ tr, (createPrimitiveTables s db).1.trace = db.trace ++ tr := by
  induction s with
  | nil => intro db; exact ⟨[], by simp [createPrimitiveTables]⟩
  | cons p rest ih =>
    intro db
    obtain ⟨typename, decl⟩ := p
    cases decl with
    | union clauses => simpa [createPrimitiveTables] using ih db
    | object fields =>
      by_cases hsafe : isSqlSafe typename = true
      · rcases hcoll : collectPrimitiveFieldNames fields with e | primNames
        · exact ⟨[], by simp [createPrimitiveTables, hsafe, hcoll]⟩
        · have hname : primitivesTableName typename = Except.ok ("primitives_" ++ typename) := by
            simp [primitivesTableName, hsafe]
          obtain ⟨tr0, htr0⟩ := execCreateTable_trace db
            { name := "primitives_" ++ typename, columns := "id" :: primNames,
              primaryKey := ["id"] }
          rcases hstep : execCreateTable db
              { name := "primitives_" ++ typename, columns := "id" :: primNames,
                primaryKey := ["id"] } with ⟨db1, res⟩
          rw [hstep] at htr0
          cases res with
          | ok r =>
            obtain ⟨tr1, htr1⟩ := ih db1
            refine ⟨tr0 ++ tr1, ?_⟩
            simp only [createPrimitiveTables, hsafe, hcoll, hname, hstep, if_true]
            rw [htr1, htr0, List.append_assoc]
          | error e =>
            refine ⟨tr0, ?_⟩
            simp only [createPrimitiveTables, hsafe, hcoll, hname, hstep, if_true]
            exact htr0
      · have hsafe' : isSqlSafe typename = false := by simpa using hsafe
        exact ⟨[], by simp [createPrimitiveTables, hsafe']⟩

/-! ## Lemmas: initialization from a fresh database -/

theorem initBody_from_empty (s : Schema) :
    initMirrorBody s (metaBlob s) (beginTxn emptyDB) =
      createPrimitiveTables s (dbAfterStructural s) := rfl

theorem init_from_empty_ok (s : Schema) (db1 : DB)
    (h : createPrimitiveTables s (dbAfterStructural s) = (db1, Except.ok ())) :
    initializeMirror s emptyDB = (commitTxn db1, Except.ok ()) := by
  have hfn : initMirrorBody s (metaBlob s) (beginTxn emptyDB) = (db1, Except.ok ()) := by
    rw [initBody_from_empty, h]
  have ht : db1.txn.isSome = true := by
    have hp := (createPrimitiveTables_pres s (dbAfterStructural s) rfl).2.1
    rw [h] at hp
    exact hp
  rw [initializeMirror, inTransaction_ok emptyDB _ db1 () rfl hfn, if_pos ht]

theorem init_from_empty_error (s : Schema) (db1 : DB) (e : Err)
    (h : createPrimitiveTables s (dbAfterStructural s) = (db1, Except.error e)) :
    initializeMirror s emptyDB = (rollbackTxn db1, Except.error e) := by
  have hfn : initMirrorBody s (metaBlob s) (beginTxn emptyDB) = (db1, Except.error e) := by
    rw [initBody_from_empty, h]
  have ht : db1.txn.isSome = true := by
    have hp := (createPrimitiveTables_pres s (dbAfterStructural s) rfl).2.1
    rw [h] at hp
    exact hp
  rw [initializeMirror, inTransaction_error emptyDB _ db1 e rfl hfn, if_pos ht]

/-! ## Lemmas: the primitive-field gathering loop -/

theorem collectPrimitiveFieldNames_ok :
    ∀ {fields : List (String × FieldType)} {ns : List String},
      collectPrimitiveFieldNames fields = Except.ok ns → ns = primitiveNamesOf fields := by
  intro fields
  induction fields with
  | nil =>
    intro ns h
    simp only [collectPrimitiveFieldNames] at h
    cases h
    rfl
  | cons p rest ih =>
    intro ns h
    obtain ⟨f, ft⟩ := p
    cases ft with
    | primitive =>
      simp only [collectPrimitiveFieldNames] at h
      by_cases hs : isSqlSafe f = true
      · rw [if_pos hs] at h
        rcases hrec : collectPrimitiveFieldNames rest with e | names
        · rw [hrec] at h; cases h
        · rw [hrec] at h
          cases h
          have := ih hrec
          simp [primitiveNamesOf, List.filter_cons, isPrimitivePair, this]
      · rw [if_neg hs] at h; cases h
    | id =>
      simp only [collectPrimitiveFieldNames] at h
      have := ih h
      simp [primitiveNamesOf, List.filter_cons, isPrimitivePair, this]
    | node t =>
      simp only [collectPrimitiveFieldNames] at h
      have := ih h
      simp [primitiveNamesOf, List.filter_cons, isPrimitivePair, this]
    | connection t =>
      simp only [collectPrimitiveFieldNames] at h
      have := ih h
      simp [primitiveNamesOf, List.filter_cons, isPrimitivePair, this]

theorem collectPrimitiveFieldNames_succeeds :
    ∀ {fields : List (String × FieldType)},
      (∀ f, (f, FieldType.primitive) ∈ fields → isSqlSafe f = true) →
      collectPrimitiveFieldNames fields = Except.ok (primitiveNamesOf fields) := by
  intro fields
  induction fields with
  | nil => intro _; rfl
  | cons p rest ih =>
    intro hsafe
    obtain ⟨f, ft⟩ := p
    have hrest : ∀ g, (g, FieldType.primitive) ∈ rest → isSqlSafe g = true :=
      fun g hg => hsafe g (List.mem_cons_of_mem _ hg)
    cases ft with
    | primitive =>
      have hf : isSqlSafe f = true := hsafe f (List.mem_cons_self _ _)
      simp only [collectPrimitiveFieldNames, if_pos hf, ih hrest]
      simp [primitiveNamesOf, List.filter_cons, isPrimitivePair]
    | id =>
      simp only [collectPrimitiveFieldNames, ih hrest]
      simp [primitiveNamesOf, List.filter_cons, isPrimitivePair]
    | node t =>
      simp only [collectPrimitiveFieldNames, ih hrest]
      simp [primitiveNamesOf, List.filter_cons, isPrimitivePair]
    | connection t =>
      simp only [collectPrimitiveFieldNames, ih hrest]
      simp [primitiveNamesOf, List.filter_cons, isPrimitivePair]

/-! ## Lemmas: general runs of the initializer -/

/-- A successful initialization leaves the transaction closed, the meta blob stored,
and a `meta` table present. -/
theorem init_ok_inv (s : Schema) (db db' : DB)
    (h : initializeMirror s db = (db', Except.ok ())) :
    db'.txn = none ∧ db'.committed.metaRow = some (metaBlob s) ∧
    (db'.committed.tables.any fun u => u.name == "meta") = true := by
  by_cases h0 : db.txn.isSome = true
  · rw [initializeMirror, inTransaction_already db _ h0] at h
    exact absurd (congrArg Prod.snd h) (by simp)
  · have h0' : db.txn = none := by
      cases htx : db.txn with
      | none => rfl
      | some t => rw [htx] at h0; simp at h0
    have hb0 : (beginTxn db).txn.isSome = true := by simp
    obtain ⟨hmc, hmt, hmm, ⟨ts0, hmtab⟩⟩ := execCreateTableIfNotExists_pres (beginTxn db) metaTable hb0
    have hany := execCreateMeta_any (beginTxn db)
    set dbm := execCreateTableIfNotExists (beginTxn db) metaTable with hdm
    cases hrow : dbm.working.metaRow with
    | some b =>
      by_cases hbeq : (b == metaBlob s) = true
      · have hbody : initMirrorBody s (metaBlob s) (beginTxn db) =
            (dbm.log "SELECT schema FROM meta", Except.ok ()) := by
          simp only [initMirrorBody, execSelectMetaSchema, ← hdm, hrow, hbeq, if_true]
        rw [initializeMirror, inTransaction_ok db _ _ () h0' hbody] at h
        have hts : (dbm.log "SELECT schema FROM meta").txn.isSome = true := by simpa using hmt
        rw [if_pos hts] at h
        injection h with h1 h2
        subst h1
        refine ⟨by simp, ?_, ?_⟩
        · simp only [commitTxn_committed, log_working]
          rw [hrow, eq_of_beq hbeq]
        · simp only [commitTxn_committed, log_working]
          exact hany
      · have hbeq' : (b == metaBlob s) = false := by simpa using hbeq
        have hbody : initMirrorBody s (metaBlob s) (beginTxn db) =
            (dbm.log "SELECT schema FROM meta", Except.error Err.mismatch) := by
          simp only [initMirrorBody, execSelectMetaSchema, ← hdm, hrow, hbeq']
          simp
        rw [initializeMirror, inTransaction_error db _ _ _ h0' hbody] at h
        exact absurd (congrArg Prod.snd h) (by simp)
    | none =>
      have hit : (dbm.log "SELECT schema FROM meta").txn.isSome = true := by simpa using hmt
      obtain ⟨hic, hitxn, him, hitab⟩ :=
        execInsertMeta_pres (dbm.log "SELECT schema FROM meta") (metaBlob s) hit
      rcases hst : execStmts (execInsertMeta (dbm.log "SELECT schema FROM meta") (metaBlob s))
          structuralStmts with ⟨db1, res1⟩
      obtain ⟨hsc, hstxn, hsm, ⟨ts1, hstab⟩⟩ :=
        execStmts_pres structuralStmts
          (execInsertMeta (dbm.log "SELECT schema FROM meta") (metaBlob s)) hitxn
      rw [hst] at hsc hstxn hsm hstab
      cases res1 with
      | error e1 =>
        have hbody : initMirrorBody s (metaBlob s) (beginTxn db) = (db1, Except.error e1) := by
          simp only [initMirrorBody, execSelectMetaSchema, ← hdm, hrow, hst]
        rw [initializeMirror, inTransaction_error db _ _ _ h0' hbody] at h
        exact absurd (congrArg Prod.snd h) (by simp)
      | ok r1 =>
        rcases hcp : createPrimitiveTables s db1 with ⟨db2, res2⟩
        obtain ⟨hpc, hptxn, hpm, ⟨ts2, hptab⟩⟩ := createPrimitiveTables_pres s db1 hstxn
        rw [hcp] at hpc hptxn hpm hptab
        cases res2 with
        | error e2 =>
          have hbody : initMirrorBody s (metaBlob s) (beginTxn db) = (db2, Except.error e2) := by
            simp only [initMirrorBody, execSelectMetaSchema, ← hdm, hrow, hst, hcp]
          rw [initializeMirror, inTransaction_error db _ _ _ h0' hbody] at h
          exact absurd (congrArg Prod.snd h) (by simp)
        | ok r2 =>
          cases r2
          have hbody : initMirrorBody s (metaBlob s) (beginTxn db) = (db2, Except.ok ()) := by
            simp only [initMirrorBody, execSelectMetaSchema, ← hdm, hrow, hst, hcp]
          rw [initializeMirror, inTransaction_ok db _ _ () h0' hbody, if_pos hptxn] at h
          injection h with h1 h2
          subst h1
          refine ⟨by simp, ?_, ?_⟩
          · simp only [commitTxn_committed]
            rw [hpm, hsm, him]
          · simp only [commitTxn_committed]
            rw [hptab, hstab, hitab]
            simp only [log_working, List.any_append, hany, Bool.true_or]

/-- Re-running the initializer against a database whose `meta` row holds exactly the
computed blob is a successful no-op: nothing committed changes. -/
theorem init_on_match (s : Schema) (db : DB) (h0 : db.txn = none)
    (hmeta : db.committed.metaRow = some (metaBlob s))
    (hany : (db.committed.tables.any fun u => u.name == "meta") = true) :
    ((initializeMirror s db).2 = Except.ok ()) ∧
    ((initializeMirror s db).1.committed = db.committed) ∧
    ((initializeMirror s db).1.txn = none) := by
  have hnoop : execCreateTableIfNotExists (beginTxn db) metaTable =
      (beginTxn db).log "CREATE TABLE IF NOT EXISTS meta" := by
    simp [execCreateTableIfNotExists, metaTable, hany]
  have hbody : initMirrorBody s (metaBlob s) (beginTxn db) =
      (((beginTxn db).log "CREATE TABLE IF NOT EXISTS meta").log "SELECT schema FROM meta",
        Except.ok ()) := by
    simp only [initMirrorBody, execSelectMetaSchema, hnoop, log_working, beginTxn_working, hmeta]
    simp
  have htxn : ((((beginTxn db).log "CREATE TABLE IF NOT EXISTS meta").log
      "SELECT schema FROM meta")).txn.isSome = true := by simp
  rw [initializeMirror, inTransaction_ok db _ _ () h0 hbody, if_pos htxn]
  exact ⟨rfl, by simp, by simp⟩

/-- Running the initializer against a database whose `meta` row holds a different
blob fails with the mismatch error and rolls back, leaving the committed state
untouched. -/
theorem init_on_mismatch (s : Schema) (db : DB) (b : String) (h0 : db.txn = none)
    (hmeta : db.committed.metaRow = some b) (hneq : b ≠ metaBlob s) :
    ((initializeMirror s db).2 = Except.error Err.mismatch) ∧
    ((initializeMirror s db).1.committed = db.committed) ∧
    ((initializeMirror s db).1.txn = none) := by
  have hb0 : (beginTxn db).txn.isSome = true := by simp
  obtain ⟨hmc, hmt, hmm, _⟩ := execCreateTableIfNotExists_pres (beginTxn db) metaTable hb0
  set dbm := execCreateTableIfNotExists (beginTxn db) metaTable with hdm
  have hrow : dbm.working.metaRow = some b := by
    rw [hmm]; simpa using hmeta
  have hbeq : (b == metaBlob s) = false := by
    cases hbb : b == metaBlob s with
    | false => rfl
    | true => exact absurd (eq_of_beq hbb) hneq
  have hbody : initMirrorBody s (metaBlob s) (beginTxn db) =
      (dbm.log "SELECT schema FROM meta", Except.error Err.mismatch) := by
    simp only [initMirrorBody, execSelectMetaSchema, ← hdm, hrow, hbeq]
    simp
  have hts : (dbm.log "SELECT schema FROM meta").txn.isSome = true := by simpa using hmt
  rw [initializeMirror, inTransaction_error db _ _ _ h0 hbody, if_pos hts]
  refine ⟨rfl, ?_, by simp⟩
  simp only [rollbackTxn_committed, log_committed]
  rw [hmc]
  simp

/-! ## Lemmas: the per-type loop -/

theorem mem_primTablesOf {s : Schema} {u : Table} :
    u ∈ primTablesOf s ↔
      ∃ T fields, (T, TypeDecl.object fields) ∈ s ∧ u = expectedPrimitivesTable T fields := by
  simp only [primTablesOf, List.mem_filterMap]
  constructor
  · rintro ⟨⟨T, d⟩, hm, hmatch⟩
    cases d with
    | object fields =>
      simp only at hmatch
      cases hmatch
      exact ⟨T, fields, hm, rfl⟩
    | union cs => simp at hmatch
  · rintro ⟨T, fields, hm, rfl⟩
    exact ⟨(T, TypeDecl.object fields), hm, rfl⟩

theorem mem_primTablesOf_name {s : Schema} {x : String} :
    x ∈ (primTablesOf s).map Table.name ↔
      ∃ T fields, (T, TypeDecl.object fields) ∈ s ∧ x = "primitives_" ++ T := by
  simp only [List.mem_map]
  constructor
  · rintro ⟨u, hu, rfl⟩
    obtain ⟨T, fields, hm, rfl⟩ := mem_primTablesOf.mp hu
    exact ⟨T, fields, hm, rfl⟩
  · rintro ⟨T, fields, hm, rfl⟩
    exact ⟨expectedPrimitivesTable T fields, mem_primTablesOf.mpr ⟨T, fields, hm, rfl⟩, rfl⟩

theorem execCreateTable_ok {db : DB} {t : Table} {db2 : DB}
    (h : execCreateTable db t = (db2, Except.ok ())) :
    ((db.working.tables.any fun u => u.name == t.name) = false) ∧
    (db2 = (db.log ("CREATE TABLE " ++ t.name)).setWorking
        { db.working with tables := db.working.tables ++ [t] }) := by
  simp only [execCreateTable, log_working] at h
  by_cases hc : (db.working.tables.any fun u => u.name == t.name) = true
  · rw [if_pos hc] at h
    exact absurd (congrArg Prod.snd h) (by simp)
  · rw [if_neg hc] at h
    injection h with h1 h2
    exact ⟨by simpa using hc, h1.symm⟩

theorem createPrimitiveTables_ok (s : Schema) :
    ∀ db db1 : DB, db.txn.isSome = true →
      createPrimitiveTables s db = (db1, Except.ok ()) →
      (db1.working.tables = db.working.tables ++ primTablesOf s) ∧
      (∀ T fields, (T, TypeDecl.object fields) ∈ s →
         ("primitives_" ++ T) ∉ db.working.tables.map Table.name) ∧
      ((primTablesOf s).map Table.name).Nodup := by
  induction s with
  | nil =>
    intro db db1 htx h
    simp only [createPrimitiveTables] at h
    injection h with h1 h2
    subst h1
    exact ⟨by simp [primTablesOf], by simp, by simp [primTablesOf]⟩
  | cons p rest ih =>
    intro db db1 htx h
    obtain ⟨typename, decl⟩ := p
    cases decl with
    | union clauses =>
      simp only [createPrimitiveTables] at h
      obtain ⟨h1, h2, h3⟩ := ih db db1 htx h
      refine ⟨by simpa [primTablesOf] using h1, ?_, by simpa [primTablesOf] using h3⟩
      intro T fields hm
      rcases List.mem_cons.1 hm with hhead | htail
      · simp at hhead
      · exact h2 T fields htail
    | object fields =>
      by_cases hsafe : isSqlSafe typename = true
      · rcases hcoll : collectPrimitiveFieldNames fields with e | primNames
        · simp [createPrimitiveTables, hsafe, hcoll] at h
        · have hname : primitivesTableName typename = Except.ok ("primitives_" ++ typename) := by
            simp [primitivesTableName, hsafe]
          rcases hstep : execCreateTable db
              { name := "primitives_" ++ typename, columns := "id" :: primNames,
                primaryKey := ["id"] } with ⟨db2, res⟩
          cases res with
          | error e =>
            simp only [createPrimitiveTables, hsafe, hcoll, hname, hstep, if_true] at h
            exact absurd (congrArg Prod.snd h) (by simp)
          | ok r =>
            cases r
            have hrec : createPrimitiveTables rest db2 = (db1, Except.ok ()) := by
              simpa only [createPrimitiveTables, hsafe, hcoll, hname, hstep, if_true] using h
            obtain ⟨hcond, hdb2⟩ := execCreateTable_ok hstep
            have htx2 : db2.txn.isSome = true := by rw [hdb2]; simp [htx]
            have htab2 : db2.working.tables = db.working.tables ++
                [{ name := "primitives_" ++ typename, columns := "id" :: primNames,
                   primaryKey := ["id"] }] := by rw [hdb2]; simp
            obtain ⟨ih1, ih2, ih3⟩ := ih db2 db1 htx2 hrec
            have hnames : primNames = primitiveNamesOf fields := collectPrimitiveFieldNames_ok hcoll
            subst hnames
            have havoid_head : ("primitives_" ++ typename) ∉ db.working.tables.map Table.name := by
              intro hx
              obtain ⟨u, hu, hun⟩ := List.mem_map.1 hx
              have : (db.working.tables.any fun u => u.name == "primitives_" ++ typename) = true :=
                List.any_eq_true.mpr ⟨u, hu, by simp [hun]⟩
              rw [hcond] at this
              cases this
            refine ⟨?_, ?_, ?_⟩
            · rw [ih1, htab2, List.append_assoc]
              simp [primTablesOf, expectedPrimitivesTable]
            · intro T f hm
              rcases List.mem_cons.1 hm with hhead | htail
              · obtain ⟨hT, hf⟩ := Prod.mk.injEq _ _ _ _ ▸ hhead
                subst hT
                exact havoid_head
              · intro hx
                have hx2 : ("primitives_" ++ T) ∈ db2.working.tables.map Table.name := by
                  rw [htab2]
                  simp only [List.map_append, List.mem_append]
                  exact Or.inl hx
                exact ih2 T f htail hx2
            · have hmemname : ("primitives_" ++ typename) ∈ db2.working.tables.map Table.name := by
                rw [htab2]
                simp
              have hnotin : ("primitives_" ++ typename) ∉ (primTablesOf rest).map Table.name := by
                intro hx
                obtain ⟨T', f', hm', heq⟩ := mem_primTablesOf_name.mp hx
                have hT' : typename = T' := primPrefix_inj heq
                subst hT'
                exact ih2 typename f' hm' hmemname
              have : primTablesOf ((typename, TypeDecl.object fields) :: rest) =
                  expectedPrimitivesTable typename fields :: primTablesOf rest := by
                simp [primTablesOf]
              rw [this, List.map_cons, List.nodup_cons]
              exact ⟨hnotin, ih3⟩
      · have hsafe' : isSqlSafe typename = false := by simpa using hsafe
        simp [createPrimitiveTables, hsafe'] at h

theorem createPrimitiveTables_succeeds (s : Schema) :
    ∀ db : DB, db.txn.isSome = true →
      objectIdentifiersSafe s = true →
      ((s.map Prod.fst).Nodup) →
      (∀ T fields, (T, TypeDecl.object fields) ∈ s →
         ("primitives_" ++ T) ∉ db.working.tables.map Table.name) →
      (createPrimitiveTables s db).2 = Except.ok () := by
  induction s with
  | nil => intro db _ _ _ _; rfl
  | cons p rest ih =>
    intro db htx hsafe hnodup havoid
    obtain ⟨typename, decl⟩ := p
    rw [objectIdentifiersSafe, List.all_cons, Bool.and_eq_true] at hsafe
    obtain ⟨hhead, htail⟩ := hsafe
    have htail' : objectIdentifiersSafe rest = true := htail
    rw [List.map_cons, List.nodup_cons] at hnodup
    obtain ⟨hnn, hnodup'⟩ := hnodup
    cases decl with
    | union clauses =>
      simp only [createPrimitiveTables]
      exact ih db htx htail' hnodup'
        (fun T f hm => havoid T f (List.mem_cons_of_mem _ hm))
    | object fields =>
      simp only at hhead
      rw [Bool.and_eq_true] at hhead
      obtain ⟨hT, hF⟩ := hhead
      have hFields : ∀ f, (f, FieldType.primitive) ∈ fields → isSqlSafe f = true := by
        intro f hf
        have := List.all_eq_true.mp hF (f, FieldType.primitive) hf
        simpa using this
      have hcoll := collectPrimitiveFieldNames_succeeds hFields
      have hname : primitivesTableName typename = Except.ok ("primitives_" ++ typename) := by
        simp [primitivesTableName, hT]
      have hcond : (db.working.tables.any fun u =>
          u.name == "primitives_" ++ typename) = false := by
        by_cases hc : (db.working.tables.any fun u => u.name == "primitives_" ++ typename) = true
        · obtain ⟨u, hu, hbe⟩ := List.any_eq_true.mp hc
          exact absurd
            (List.mem_map.2 ⟨u, hu, eq_of_beq hbe⟩)
            (havoid typename fields (List.mem_cons_self _ _))
        · simpa using hc
      simp only [createPrimitiveTables, hT, if_true, hcoll, hname]
      simp only [execCreateTable, log_working]
      rw [if_neg (by rw [hcond]; simp)]
      apply ih
      · simp [htx]
      · exact htail'
      · exact hnodup'
      · intro T f hm
        have h1 := havoid T f (List.mem_cons_of_mem _ hm)
        have hTne : T ≠ typename := by
          intro hEq
          subst hEq
          exact hnn (List.mem_map.2 ⟨(T, TypeDecl.object f), hm, rfl⟩)
        intro hx
        simp only [working_setWorking, List.map_append, List.mem_append] at hx
        rcases hx with hx | hx
        · exact h1 hx
        · simp only [List.map_cons, List.map_nil, List.mem_singleton] at hx
          exact hTne (primPrefix_inj hx)

/-! ## Claim theorems -/

/-- C3: if `initialize(D, S)` fails for any reason on a fresh empty database D
(identifier-unsafe name, schema mismatch, or engine error), then D is bit-identical
to its pre-call empty state: no tables, no indexes, and no `meta` row exist, and no
transaction is left open. -/
theorem c3_all_or_nothing (s : Schema) (db' : DB) (e : Err)
    (h : initializeMirror s emptyDB = (db', Except.error e)) :
    db'.committed = emptyEngineState ∧ db'.txn = none := by
  rcases hcp : createPrimitiveTables s (dbAfterStructural s) with ⟨db1, res⟩
  cases res with
  | ok r =>
    cases r
    rw [init_from_empty_ok s db1 hcp] at h
    exact absurd (congrArg Prod.snd h) (by simp)
  | error e1 =>
    rw [init_from_empty_error s db1 e1 hcp] at h
    injection h with h1 h2
    subst h1
    have hpres := (createPrimitiveTables_pres s (dbAfterStructural s) rfl).1
    rw [hcp] at hpres
    refine ⟨?_, by simp⟩
    simp only [rollbackTxn_committed]
    rw [hpres]
    rfl

/-- C3 witness: a failing initialization (unsafe object typename `"bad name"`) on a
fresh database leaves the committed state empty and no transaction open. -/
theorem c3_all_or_nothing_witness :
    ((initializeMirror [("bad name", TypeDecl.object [])] emptyDB).1.committed =
      emptyEngineState) ∧
    ((initializeMirror [("bad name", TypeDecl.object [])] emptyDB).1.txn = none) :=
  c3_all_or_nothing [("bad name", TypeDecl.object [])]
    (initializeMirror [("bad name", TypeDecl.object [])] emptyDB).1
    (Err.invalidTypename "bad name") (by decide)

/-- C5: on every successful initialization from a fresh database, each object type T
of the schema has a table named `primitives_T` whose columns are exactly the
primary-key column `id` followed by T's primitive field names verbatim, and no other
table carries that name. -/
theorem c5_column_presence (S : Schema) (db' : DB)
    (h : initializeMirror S emptyDB = (db', Except.ok ()))
    (T : String) (fields : List (String × FieldType))
    (hT : (T, TypeDecl.object fields) ∈ S) :
    (expectedPrimitivesTable T fields ∈ db'.committed.tables) ∧
    (∀ u ∈ db'.committed.tables, u.name = "primitives_" ++ T →
       u = expectedPrimitivesTable T fields) := by
  rcases hcp : createPrimitiveTables S (dbAfterStructural S) with ⟨db1, res⟩
  cases res with
  | error e =>
    rw [init_from_empty_error S db1 e hcp] at h
    exact absurd (congrArg Prod.snd h) (by simp)
  | ok r =>
    cases r
    rw [init_from_empty_ok S db1 hcp] at h
    injection h with h1 h2
    subst h1
    obtain ⟨htab, havoid, hnodup⟩ := createPrimitiveTables_ok S (dbAfterStructural S) db1 rfl hcp
    have hct : (commitTxn db1).committed.tables =
        (dbAfterStructural S).working.tables ++ primTablesOf S := by
      simp only [commitTxn_committed]
      rw [htab]
    have hbase : ("primitives_" ++ T) ∉
        ((dbAfterStructural S).working.tables).map Table.name := havoid T fields hT
    constructor
    · rw [hct]
      exact List.mem_append_right _ (mem_primTablesOf.mpr ⟨T, fields, hT, rfl⟩)
    · intro u hu hname
      rw [hct] at hu
      rcases List.mem_append.1 hu with hb | hp
      · exact absurd (List.mem_map.2 ⟨u, hb, hname⟩) hbase
      · obtain ⟨T', f', hm', rfl⟩ := mem_primTablesOf.mp hp
        have hTT : T' = T := primPrefix_inj (by simpa [expectedPrimitivesTable] using hname)
        subst hTT
        exact List.inj_on_of_nodup_map hnodup hp
          (mem_primTablesOf.mpr ⟨T', fields, hT, rfl⟩) rfl

/-- C5 witness: the `Issue` schema of the spec's scenario S2 yields a
`primitives_Issue` table with exactly the columns `id`, `title`. -/
theorem c5_column_presence_witness :
    expectedPrimitivesTable "Issue"
        [("id", FieldType.id), ("title", FieldType.primitive),
         ("author", FieldType.node "User"), ("comments", FieldType.connection "Comment")] ∈
      (initializeMirror
        [("Issue", TypeDecl.object
          [("id", FieldType.id), ("title", FieldType.primitive),
           ("author", FieldType.node "User"), ("comments", FieldType.connection "Comment")])]
        emptyDB).1.committed.tables :=
  (c5_column_presence
    [("Issue", TypeDecl.object
      [("id", FieldType.id), ("title", FieldType.primitive),
       ("author", FieldType.node "User"), ("comments", FieldType.connection "Comment")])]
    (initializeMirror
      [("Issue", TypeDecl.object
        [("id", FieldType.id), ("title", FieldType.primitive),
         ("author", FieldType.node "User"), ("comments", FieldType.connection "Comment")])]
      emptyDB).1
    (by decide) "Issue"
    [("id", FieldType.id), ("title", FieldType.primitive),
     ("author", FieldType.node "User"), ("comments", FieldType.connection "Comment")]
    (by decide)).1

/-- C7 counterexample: with the unsafe object typename `"bad name"`, `initialize`
does raise the identifier-unsafe error, but SQL statements (among them
`CREATE TABLE updates`) have already been executed against the database when it is
raised — refuting the claim that the error precedes all SQL execution. -/
theorem c7_counterexample :
    ((initializeMirror [("bad name", TypeDecl.object [])] emptyDB).2 =
      Except.error (Err.invalidTypename "bad name")) ∧
    ("CREATE TABLE updates" ∈
      (initializeMirror [("bad name", TypeDecl.object [])] emptyDB).1.trace) := by
  decide

/-- If some primitive field name fails `isSqlSafe`, the gathering loop raises the
`invalid field name` error (for the first such field). -/
theorem collectPrimitiveFieldNames_unsafe :
    ∀ {fields : List (String × FieldType)},
      (fields.all (fun q =>
        match q.2 with
        | FieldType.primitive => isSqlSafe q.1
        | _ => true)) = false →
      ∃ f, collectPrimitiveFieldNames fields = Except.error (Err.invalidFieldname f) := by
  intro fields
  induction fields with
  | nil => intro h; simp at h
  | cons p rest ih =>
    intro h
    obtain ⟨f, ft⟩ := p
    cases ft with
    | primitive =>
      by_cases hf : isSqlSafe f = true
      · have htail : (rest.all (fun q =>
            match q.2 with
            | FieldType.primitive => isSqlSafe q.1
            | _ => true)) = false := by
          rw [List.all_cons] at h
          simpa [hf] using h
        obtain ⟨g, hg⟩ := ih htail
        exact ⟨g, by simp only [collectPrimitiveFieldNames, if_pos hf, hg]⟩
      · exact ⟨f, by simp only [collectPrimitiveFieldNames, if_neg hf]⟩
    | id =>
      have htail : (rest.all (fun q =>
          match q.2 with
          | FieldType.primitive => isSqlSafe q.1
          | _ => true)) = false := by
        rw [List.all_cons] at h
        simpa using h
      obtain ⟨g, hg⟩ := ih htail
      exact ⟨g, by simp only [collectPrimitiveFieldNames, hg]⟩
    | node t =>
      have htail : (rest.all (fun q =>
          match q.2 with
          | FieldType.primitive => isSqlSafe q.1
          | _ => true)) = false := by
        rw [List.all_cons] at h
        simpa using h
      obtain ⟨g, hg⟩ := ih htail
      exact ⟨g, by simp only [collectPrimitiveFieldNames, hg]⟩
    | connection t =>
      have htail : (rest.all (fun q =>
          match q.2 with
          | FieldType.primitive => isSqlSafe q.1
          | _ => true)) = false := by
        rw [List.all_cons] at h
        simpa using h
      obtain ⟨g, hg⟩ := ih htail
      exact ⟨g, by simp only [collectPrimitiveFieldNames, hg]⟩

/-- On any schema (with unique typenames) containing an identifier-unsafe object
typename or primitive field name, the per-type loop fails, and it fails with one of
the two identifier-unsafe errors: the walk reaches the first offending entry —
every earlier, fully safe object type only creates its fresh `primitives_` table —
and raises `invalid object type name` or `invalid field name` there. -/
theorem createPrimitiveTables_unsafe (s : Schema) :
    ∀ db : DB, db.txn.isSome = true →
      ((s.map Prod.fst).Nodup) →
      objectIdentifiersSafe s = false →
      (∀ T fields, (T, TypeDecl.object fields) ∈ s →
         ("primitives_" ++ T) ∉ db.working.tables.map Table.name) →
      ∃ db1 e, createPrimitiveTables s db = (db1, Except.error e) ∧
        isIdentifierError e = true := by
  induction s with
  | nil => intro db _ _ hviol _; simp [objectIdentifiersSafe] at hviol
  | cons p rest ih =>
    intro db htx hnodup hviol havoid
    obtain ⟨typename, decl⟩ := p
    rw [List.map_cons, List.nodup_cons] at hnodup
    obtain ⟨hnn, hnodup'⟩ := hnodup
    cases decl with
    | union clauses =>
      have hrest : objectIdentifiersSafe rest = false := by
        rw [objectIdentifiersSafe, List.all_cons] at hviol
        simpa [objectIdentifiersSafe] using hviol
      obtain ⟨db1, e, heq, hide⟩ := ih db htx hnodup' hrest
        (fun T f hm => havoid T f (List.mem_cons_of_mem _ hm))
      exact ⟨db1, e, by simp only [createPrimitiveTables]; exact heq, hide⟩
    | object fields =>
      by_cases hT : isSqlSafe typename = true
      · by_cases hF : (fields.all (fun q =>
            match q.2 with
            | FieldType.primitive => isSqlSafe q.1
            | _ => true)) = true
        · -- this entry is fully safe, so the offender is further on
          have hrest : objectIdentifiersSafe rest = false := by
            rw [objectIdentifiersSafe, List.all_cons] at hviol
            simpa [objectIdentifiersSafe, hT, hF] using hviol
          have hFields : ∀ f, (f, FieldType.primitive) ∈ fields → isSqlSafe f = true := by
            intro f hf
            have := List.all_eq_true.mp hF (f, FieldType.primitive) hf
            simpa using this
          have hcoll := collectPrimitiveFieldNames_succeeds hFields
          have hname : primitivesTableName typename = Except.ok ("primitives_" ++ typename) := by
            simp [primitivesTableName, hT]
          have hcond : (db.working.tables.any fun u =>
              u.name == "primitives_" ++ typename) = false := by
            by_cases hc : (db.working.tables.any fun u =>
                u.name == "primitives_" ++ typename) = true
            · obtain ⟨u, hu, hbe⟩ := List.any_eq_true.mp hc
              exact absurd
                (List.mem_map.2 ⟨u, hu, eq_of_beq hbe⟩)
                (havoid typename fields (List.mem_cons_self _ _))
            · simpa using hc
          simp only [createPrimitiveTables, hT, if_true, hcoll, hname]
          simp only [execCreateTable, log_working]
          rw [if_neg (by rw [hcond]; simp)]
          apply ih
          · simp [htx]
          · exact hnodup'
          · exact hrest
          · intro T f hm
            have h1 := havoid T f (List.mem_cons_of_mem _ hm)
            have hTne : T ≠ typename := by
              intro hEq
              subst hEq
              exact hnn (List.mem_map.2 ⟨(T, TypeDecl.object f), hm, rfl⟩)
            intro hx
            simp only [working_setWorking, List.map_append, List.mem_append] at hx
            rcases hx with hx | hx
            · exact h1 hx
            · simp only [List.map_cons, List.map_nil, List.mem_singleton] at hx
              exact hTne (primPrefix_inj hx)
        · -- an unsafe primitive field name in this object type
          have hF' : (fields.all (fun q =>
              match q.2 with
              | FieldType.primitive => isSqlSafe q.1
              | _ => true)) = false := by simpa using hF
          obtain ⟨f, hff⟩ := collectPrimitiveFieldNames_unsafe hF'
          refine ⟨db, Err.invalidFieldname f, ?_, rfl⟩
          simp only [createPrimitiveTables, hT, if_true, hff]
      · -- an unsafe object typename
        refine ⟨db, Err.invalidTypename typename, ?_, rfl⟩
        simp only [createPrimitiveTables]
        rw [if_neg hT]

/-- No structural table of a fresh initialization is named like a primitives table. -/
theorem dbAfterStructural_avoid (s : Schema) (T : String) :
    ("primitives_" ++ T) ∉ (dbAfterStructural s).working.tables.map Table.name := by
  intro hx
  have hhead := prim_name_head T
  simp only [dbAfterStructural, DB.working, metaTable, updatesTable, objectsTable,
    linksTable, connectionsTable, connectionEntriesTable, Option.getD_some,
    List.map_cons, List.map_nil, List.mem_cons, List.not_mem_nil, or_false] at hx
  rcases hx with h | h | h | h | h | h <;> (rw [h] at hhead; exact absurd hhead (by decide))

/-- C7 (amended): every schema (with JS-object-unique typenames) containing an
identifier-unsafe object typename or primitive field name makes `initialize` on a
fresh database fail with an identifier-unsafe error, raised inside the init
transaction after the meta and structural DDL have executed (the trace contains
`CREATE TABLE updates`); the rollback leaves the database bit-identical to its empty
pre-call state. -/
theorem c7_identifier_error_in_transaction (s : Schema)
    (hnodup : (s.map Prod.fst).Nodup)
    (hviol : objectIdentifiersSafe s = false) :
    resultIsIdentifierError (initializeMirror s emptyDB).2 = true ∧
    (initializeMirror s emptyDB).1.committed = emptyEngineState ∧
    (initializeMirror s emptyDB).1.txn = none ∧
    "CREATE TABLE updates" ∈ (initializeMirror s emptyDB).1.trace := by
  obtain ⟨db1, e, hcp, hide⟩ := createPrimitiveTables_unsafe s (dbAfterStructural s)
    rfl hnodup hviol (fun T fields _ => dbAfterStructural_avoid s T)
  rw [init_from_empty_error s db1 e hcp]
  have hpres := (createPrimitiveTables_pres s (dbAfterStructural s) rfl).1
  rw [hcp] at hpres
  obtain ⟨tr, htr⟩ := createPrimitiveTables_trace s (dbAfterStructural s)
  rw [hcp] at htr
  refine ⟨by simp [resultIsIdentifierError, hide], ?_, by simp, ?_⟩
  · simp only [rollbackTxn_committed]
    rw [hpres]
    rfl
  · simp only [rollbackTxn_trace]
    rw [htr]
    apply List.mem_append_left
    apply List.mem_append_left
    simp [dbAfterStructural]

/-- C7 witness: a schema whose only unsafe identifier is a primitive field name
fails with the identifier-unsafe error, with the structural DDL already executed and
everything rolled back. -/
theorem c7_identifier_error_in_transaction_witness :
    (resultIsIdentifierError
      (initializeMirror [("Obj", TypeDecl.object [("bad field", FieldType.primitive)])]
        emptyDB).2 = true) ∧
    ((initializeMirror [("Obj", TypeDecl.object [("bad field", FieldType.primitive)])]
        emptyDB).1.committed = emptyEngineState) ∧
    ((initializeMirror [("Obj", TypeDecl.object [("bad field", FieldType.primitive)])]
        emptyDB).1.txn = none) ∧
    "CREATE TABLE updates" ∈
      (initializeMirror [("Obj", TypeDecl.object [("bad field", FieldType.primitive)])]
        emptyDB).1.trace :=
  c7_identifier_error_in_transaction
    [("Obj", TypeDecl.object [("bad field", FieldType.primitive)])]
    (by decide) (by decide)

/-- C9: the identifier-safe check applies only to object typenames and primitive
field names: any schema (with JS-object-unique typenames) whose object typenames and
primitive field names all pass `isSqlSafe` initializes successfully on a fresh
database, regardless of its union typenames and node/connection field names. -/
theorem c9_unchecked_identifiers (s : Schema)
    (hsafe : objectIdentifiersSafe s = true)
    (hnodup : (s.map Prod.fst).Nodup) :
    (initializeMirror s emptyDB).2 = Except.ok () := by
  have hpre : ∀ T fields, (T, TypeDecl.object fields) ∈ s →
      ("primitives_" ++ T) ∉ (dbAfterStructural s).working.tables.map Table.name := by
    intro T fields _ hx
    have hhead := prim_name_head T
    simp only [dbAfterStructural, DB.working, metaTable, updatesTable, objectsTable,
      linksTable, connectionsTable, connectionEntriesTable, Option.getD_some,
      List.map_cons, List.map_nil, List.mem_cons, List.not_mem_nil, or_false] at hx
    rcases hx with h | h | h | h | h | h <;> (rw [h] at hhead; exact absurd hhead (by decide))
  rcases hcp : createPrimitiveTables s (dbAfterStructural s) with ⟨db1, res⟩
  have hok := createPrimitiveTables_succeeds s (dbAfterStructural s) rfl hsafe hnodup hpre
  rw [hcp] at hok
  cases res with
  | error e => simp at hok
  | ok r =>
    cases r
    rw [init_from_empty_ok s db1 hcp]

/-- C9 witness: a schema with an identifier-unsafe union typename, an unsafe union
clause, and unsafe node/connection field names — but safe object typenames and
primitive field names — initializes successfully. -/
theorem c9_unchecked_identifiers_witness :
    (initializeMirror
      [("bad union!", TypeDecl.union ["x y"]),
       ("Obj", TypeDecl.object
         [("id", FieldType.id), ("bad link!", FieldType.node "x y"),
          ("bad conn!", FieldType.connection "z!"), ("title", FieldType.primitive)])]
      emptyDB).2 = Except.ok () :=
  c9_unchecked_identifiers _ (by decide) (by decide)

/-- C1 counterexample: the claim quantifies over arbitrary schemas, including those
on which the first initialization fails. With S = `[("bad name", object)]` (unsafe
typename) and S' = `[]`, the serializations differ, the first call fails and rolls
back, and the second call then succeeds instead of failing with a mismatch — and it
modifies the database. -/
theorem c1_counterexample :
    (stringifySchema [("bad name", TypeDecl.object [])] ≠ stringifySchema ([] : Schema)) ∧
    ((initializeMirror ([] : Schema)
        (initializeMirror [("bad name", TypeDecl.object [])] emptyDB).1).2 =
      Except.ok ()) ∧
    ((initializeMirror ([] : Schema)
        (initializeMirror [("bad name", TypeDecl.object [])] emptyDB).1).1.committed ≠
      (initializeMirror [("bad name", TypeDecl.object [])] emptyDB).1.committed) := by
  decide

/-- C1 (amended): provided the first initialization (on a fresh database) succeeds,
initializing with any schema whose canonical-JSON serialization differs in any byte
fails with the mismatch error — a dedicated error distinct from every engine error —
and leaves the database bit-identical to its post-first-init state, with no
transaction open. -/
theorem c1_strict_version_gating (S T : Schema) (db1 : DB)
    (hneq : stringifySchema S ≠ stringifySchema T)
    (h1 : initializeMirror S emptyDB = (db1, Except.ok ())) :
    ((initializeMirror T db1).2 = Except.error Err.mismatch) ∧
    ((initializeMirror T db1).1.committed = db1.committed) ∧
    ((initializeMirror T db1).1.txn = none) := by
  obtain ⟨h0, hm, _⟩ := init_ok_inv S emptyDB db1 h1
  have hbneq : metaBlob S ≠ metaBlob T := fun hc => hneq (metaBlob_inj hc)
  exact init_on_mismatch T db1 (metaBlob S) h0 hm hbneq

/-- C1 witness: initializing with the one-object schema and then with the empty
schema hits the mismatch error. -/
theorem c1_strict_version_gating_witness :
    (initializeMirror ([] : Schema)
      (initializeMirror [("A", TypeDecl.object [("id", FieldType.id)])] emptyDB).1).2 =
      Except.error Err.mismatch :=
  (c1_strict_version_gating [("A", TypeDecl.object [("id", FieldType.id)])] []
    (initializeMirror [("A", TypeDecl.object [("id", FieldType.id)])] emptyDB).1
    (by decide) (by decide)).1

/-- C2 counterexample: the claim quantifies over every database D, including one
already initialized with a different schema; there `initialize(D, S)` (and its
repetition) fails with the mismatch error rather than succeeding. -/
theorem c2_counterexample :
    ((initializeMirror ([] : Schema)
        (initializeMirror [("A", TypeDecl.object [("id", FieldType.id)])] emptyDB).1).2 =
      Except.error Err.mismatch) ∧
    ((initializeMirror ([] : Schema)
        (initializeMirror ([] : Schema)
          (initializeMirror [("A", TypeDecl.object [("id", FieldType.id)])] emptyDB).1).1).2 =
      Except.error Err.mismatch) := by
  decide

/-- C2 (amended): whenever `initialize(D, S)` succeeds, running `initialize` again
with the same schema on the resulting database succeeds, performs no DDL and inserts
no rows (the committed state is bit-identical), and leaves no transaction open. -/
theorem c2_idempotent (s : Schema) (db db' : DB)
    (h : initializeMirror s db = (db', Except.ok ())) :
    ((initializeMirror s db').2 = Except.ok ()) ∧
    ((initializeMirror s db').1.committed = db'.committed) ∧
    ((initializeMirror s db').1.txn = none) := by
  obtain ⟨h0, hm, ha⟩ := init_ok_inv s db db' h
  exact init_on_match s db' h0 hm ha

/-- C2 witness: re-initializing with the empty schema after a successful first
initialization succeeds. -/
theorem c2_idempotent_witness :
    (initializeMirror ([] : Schema) (initializeMirror ([] : Schema) emptyDB).1).2 =
      Except.ok () :=
  (c2_idempotent [] emptyDB (initializeMirror ([] : Schema) emptyDB).1 (by decide)).1

/-- C4: for a well-formed schema (unique JS-object keys, exactly one ID field per
object type), the three field-name sequences `_buildSchemaInfo` produces for an
object type are pairwise disjoint, contain no ID field, and together with the ID
field exhaust the keys of the type's field mapping. -/
theorem c4_partition_completeness (S : Schema) (T : String)
    (fields : List (String × FieldType))
    (hT : (T, TypeDecl.object fields) ∈ S)
    (hkeys : (fields.map Prod.fst).Nodup)
    (idName : String) (hid : (idName, FieldType.id) ∈ fields)
    (hone : fields.countP isIdPair = 1) :
    ((T, buildObjectEntry fields) ∈ (_buildSchemaInfo S).objectTypes) ∧
    (buildObjectEntry fields).primitiveFieldNames.Disjoint
      (buildObjectEntry fields).linkFieldNames ∧
    (buildObjectEntry fields).primitiveFieldNames.Disjoint
      (buildObjectEntry fields).connectionFieldNames ∧
    (buildObjectEntry fields).linkFieldNames.Disjoint
      (buildObjectEntry fields).connectionFieldNames ∧
    idName ∉ (buildObjectEntry fields).primitiveFieldNames ∧
    idName ∉ (buildObjectEntry fields).linkFieldNames ∧
    idName ∉ (buildObjectEntry fields).connectionFieldNames ∧
    (∀ f, f ∈ fields.map Prod.fst ↔
      (f = idName ∨ f ∈ (buildObjectEntry fields).primitiveFieldNames ∨
       f ∈ (buildObjectEntry fields).linkFieldNames ∨
       f ∈ (buildObjectEntry fields).connectionFieldNames)) := by
  have hmemInfo : (T, buildObjectEntry fields) ∈ (_buildSchemaInfo S).objectTypes := by
    rw [buildSchemaInfo_eq]
    exact List.mem_filterMap.mpr ⟨(T, TypeDecl.object fields), hT, rfl⟩
  refine ⟨hmemInfo, ?_, ?_, ?_, ?_, ?_, ?_, ?_⟩ <;> simp only [buildObjectEntry_eq]
  · intro a h1 h2
    obtain h1' := mem_primitiveNamesOf.mp h1
    obtain ⟨t, h2'⟩ := mem_linkNamesOf.mp h2
    exact FieldType.noConfusion (assoc_functional hkeys h1' h2')
  · intro a h1 h2
    obtain h1' := mem_primitiveNamesOf.mp h1
    obtain ⟨t, h2'⟩ := mem_connectionNamesOf.mp h2
    exact FieldType.noConfusion (assoc_functional hkeys h1' h2')
  · intro a h1 h2
    obtain ⟨t1, h1'⟩ := mem_linkNamesOf.mp h1
    obtain ⟨t2, h2'⟩ := mem_connectionNamesOf.mp h2
    exact FieldType.noConfusion (assoc_functional hkeys h1' h2')
  · intro h1
    exact FieldType.noConfusion (assoc_functional hkeys hid (mem_primitiveNamesOf.mp h1))
  · intro h1
    obtain ⟨t, h1'⟩ := mem_linkNamesOf.mp h1
    exact FieldType.noConfusion (assoc_functional hkeys hid h1')
  · intro h1
    obtain ⟨t, h1'⟩ := mem_connectionNamesOf.mp h1
    exact FieldType.noConfusion (assoc_functional hkeys hid h1')
  · intro f
    constructor
    · intro hf
      obtain ⟨⟨g, ft⟩, hmem, hfst⟩ := List.mem_map.1 hf
      simp only at hfst
      subst hfst
      cases ft with
      | id =>
        left
        have heq2 := countP_one_unique isIdPair fields hone _ _
          hmem hid (by simp [isIdPair]) (by simp [isIdPair])
        exact congrArg Prod.fst heq2
      | primitive => exact Or.inr (Or.inl (mem_primitiveNamesOf.mpr hmem))
      | node t => exact Or.inr (Or.inr (Or.inl (mem_linkNamesOf.mpr ⟨t, hmem⟩)))
      | connection t => exact Or.inr (Or.inr (Or.inr (mem_connectionNamesOf.mpr ⟨t, hmem⟩)))
    · rintro (rfl | hf | hf | hf)
      · exact List.mem_map.2 ⟨(f, FieldType.id), hid, rfl⟩
      · exact List.mem_map.2 ⟨(f, FieldType.primitive), mem_primitiveNamesOf.mp hf, rfl⟩
      · obtain ⟨t, hmem⟩ := mem_linkNamesOf.mp hf
        exact List.mem_map.2 ⟨(f, FieldType.node t), hmem, rfl⟩
      · obtain ⟨t, hmem⟩ := mem_connectionNamesOf.mp hf
        exact List.mem_map.2 ⟨(f, FieldType.connection t), hmem, rfl⟩

/-- C4 witness: the spec's `Issue` object type. -/
theorem c4_partition_completeness_witness :
    ("Issue", buildObjectEntry
      [("id", FieldType.id), ("title", FieldType.primitive),
       ("author", FieldType.node "User"), ("comments", FieldType.connection "Comment")]) ∈
      (_buildSchemaInfo [("Issue", TypeDecl.object
        [("id", FieldType.id), ("title", FieldType.primitive),
         ("author", FieldType.node "User"), ("comments", FieldType.connection "Comment")])]).objectTypes :=
  (c4_partition_completeness
    [("Issue", TypeDecl.object
      [("id", FieldType.id), ("title", FieldType.primitive),
       ("author", FieldType.node "User"), ("comments", FieldType.connection "Comment")])]
    "Issue"
    [("id", FieldType.id), ("title", FieldType.primitive),
     ("author", FieldType.node "User"), ("comments", FieldType.connection "Comment")]
    (by decide) (by decide) "id" (by decide) (by decide)).1

/-- C6 counterexample: `isSqlSafe` accepts the empty string, which does not match
`^[A-Za-z0-9_]+$`; the claimed equivalence fails at `s = ""`. -/
theorem c6_counterexample :
    isSqlSafe "" = true ∧ matchesSqlIdentifierRegex "" = false := by decide

/-- C6 (amended): `isSqlSafe s` holds iff every character of `s` is in
`[A-Za-z0-9_]` — i.e. iff `s` matches `^[A-Za-z0-9_]*$`; in particular the empty
string is accepted. -/
theorem c6_isSqlSafe_star (s : String) :
    isSqlSafe s = true ↔ s.data.all isSqlIdentChar = true := by
  simp [isSqlSafe, List.all_eq_true, List.any_eq_true]

/-- C8: the transaction wrapper (a) fails fast with the dedicated fatal error —
touching nothing, in particular beginning no transaction — when the connection is
already inside a transaction; (b) otherwise leaves the connection outside any
transaction on every path; propagates any error thrown by the callback (the
remaining transaction having been rolled back); and passes through the value of a
normally-returning callback after committing whatever transaction remains open on
exit (if the callback closed the transaction itself, the state it left is kept). -/
theorem c8_inTransaction_contract {α : Type} (db : DB) (fn : DB → DB × Except Err α) :
    (db.inTransaction = true →
       _inTransaction db fn = (db, Except.error Err.alreadyInTransaction)) ∧
    (db.inTransaction = false →
       ((_inTransaction db fn).1.inTransaction = false) ∧
       (∀ e, (fn (beginTxn db)).2 = Except.error e →
          (_inTransaction db fn).2 = Except.error e) ∧
       (∀ r, (fn (beginTxn db)).2 = Except.ok r →
          ((_inTransaction db fn).2 = Except.ok r ∧
           (_inTransaction db fn).1.committed = (fn (beginTxn db)).1.working))) := by
  constructor
  · intro h
    exact inTransaction_already db fn (by simpa using h)
  · intro h
    have h0 : db.txn = none := by
      cases htx : db.txn with
      | none => rfl
      | some t => rw [inTransaction_eq, htx] at h; simp at h
    rcases hfn : fn (beginTxn db) with ⟨db1, res⟩
    cases res with
    | ok r0 =>
      have heq := inTransaction_ok db fn db1 r0 h0 hfn
      refine ⟨?_, ?_, ?_⟩
      · rw [heq]
        by_cases h1 : db1.txn.isSome = true
        · simp [h1]
        · have h1' : db1.txn = none := by
            cases htx : db1.txn with
            | none => rfl
            | some t => rw [htx] at h1; simp at h1
          simp [h1']
      · intro e he
        simp at he
      · intro r hr
        simp at hr
        subst hr
        rw [heq]
        refine ⟨rfl, ?_⟩
        by_cases h1 : db1.txn.isSome = true
        · simp [h1]
        · have h1' : db1.txn = none := by
            cases htx : db1.txn with
            | none => rfl
            | some t => rw [htx] at h1; simp at h1
          simp [h1', DB.working]
    | error e0 =>
      have heq := inTransaction_error db fn db1 e0 h0 hfn
      refine ⟨?_, ?_, ?_⟩
      · rw [heq]
        by_cases h1 : db1.txn.isSome = true
        · simp [h1]
        · have h1' : db1.txn = none := by
            cases htx : db1.txn with
            | none => rfl
            | some t => rw [htx] at h1; simp at h1
          simp [h1, h1']
      · intro e he
        simp at he
        subst he
        rw [heq]
      · intro r hr
        simp at hr

/-- C8 witness: a normally-returning callback has its value passed through. -/
theorem c8_inTransaction_contract_witness :
    (_inTransaction emptyDB (fun dbx => (dbx, Except.ok (42 : Nat)))).2 =
      Except.ok 42 :=
  (((c8_inTransaction_contract emptyDB (fun dbx => (dbx, Except.ok (42 : Nat)))).2
      rfl).2.2 42 rfl).1

/-- C10: `_buildSchemaInfo` enforces no exactly-one-ID invariant: for any object
type — including ones with zero or several ID fields — it returns its entry
normally, keeps the raw field mapping intact, and excludes every ID field from all
three partitioned sequences while the field stays among the mapping's keys. -/
theorem c10_no_id_enforcement (S : Schema) (T : String)
    (fields : List (String × FieldType))
    (hT : (T, TypeDecl.object fields) ∈ S)
    (hkeys : (fields.map Prod.fst).Nodup) :
    ((T, buildObjectEntry fields) ∈ (_buildSchemaInfo S).objectTypes) ∧
    ((buildObjectEntry fields).fields = fields) ∧
    (∀ f, (f, FieldType.id) ∈ fields →
      f ∈ fields.map Prod.fst ∧
      f ∉ (buildObjectEntry fields).primitiveFieldNames ∧
      f ∉ (buildObjectEntry fields).linkFieldNames ∧
      f ∉ (buildObjectEntry fields).connectionFieldNames) := by
  refine ⟨?_, ?_, ?_⟩
  · rw [buildSchemaInfo_eq]
    exact List.mem_filterMap.mpr ⟨(T, TypeDecl.object fields), hT, rfl⟩
  · rw [buildObjectEntry_eq]
  · intro f hf
    simp only [buildObjectEntry_eq]
    refine ⟨List.mem_map.2 ⟨(f, FieldType.id), hf, rfl⟩, ?_, ?_, ?_⟩
    · intro h1
      exact FieldType.noConfusion (assoc_functional hkeys hf (mem_primitiveNamesOf.mp h1))
    · intro h1
      obtain ⟨t, h1'⟩ := mem_linkNamesOf.mp h1
      exact FieldType.noConfusion (assoc_functional hkeys hf h1')
    · intro h1
      obtain ⟨t, h1'⟩ := mem_connectionNamesOf.mp h1
      exact FieldType.noConfusion (assoc_functional hkeys hf h1')

/-- C10 witness: an object type with two ID fields is decomposed without error. -/
theorem c10_no_id_enforcement_witness :
    ("T", buildObjectEntry
      [("id1", FieldType.id), ("id2", FieldType.id), ("x", FieldType.primitive)]) ∈
      (_buildSchemaInfo [("T", TypeDecl.object
        [("id1", FieldType.id), ("id2", FieldType.id), ("x", FieldType.primitive)])]).objectTypes :=
  (c10_no_id_enforcement
    [("T", TypeDecl.object
      [("id1", FieldType.id), ("id2", FieldType.id), ("x", FieldType.primitive)])]
    "T"
    [("id1", FieldType.id), ("id2", FieldType.id), ("x", FieldType.primitive)]
    (by decide) (by decide)).1
